import Mathlib

/-!
Shallow embedding of the bvhar C++ sources `src/estimate-sv.cpp` and
`src/generate-distn.cpp`, with theorems settling claims about them.

Matrices are embedded as dimension-tagged total entry functions over `ℚ`
(C++ `double` arithmetic is modelled by exact rational arithmetic; no claim
below depends on rounding).  The external random-variate primitives
(`norm_rand`, `chisq_rand` from the R API) and the Eigen numeric kernels
(Cholesky factor, matrix square root, matrix inverse, `llt().solve`) are
external collaborators of the repository; they are abstracted as explicit
function parameters.  Random draws are threaded through an explicit draw
counter, so "this error surfaces before any random draw" is expressible as
"the counter is unchanged on the error path".
-/

namespace Bvhar

/-- Dense rational matrix: dimensions plus a total entry function. -/
structure Mat where
  rows : ℕ
  cols : ℕ
  entry : ℕ → ℕ → ℚ

/-- Hygienic matrix constructor: entries outside the declared shape are `0`,
mirroring the fact that an Eigen matrix has no entries outside its shape. -/
def Mat.mk' (r c : ℕ) (f : ℕ → ℕ → ℚ) : Mat :=
  ⟨r, c, fun i j => if i < r ∧ j < c then f i j else 0⟩

/-- Dense rational vector: size plus a total entry function. -/
structure Vec where
  size : ℕ
  entry : ℕ → ℚ

/-- Hygienic vector constructor: entries outside the declared size are `0`. -/
def Vec.mk' (n : ℕ) (f : ℕ → ℚ) : Vec :=
  ⟨n, fun k => if k < n then f k else 0⟩

/-- Matrix product; the result shape is (lhs rows) × (rhs cols), as for
Eigen `operator*`. -/
def Mat.mul (a b : Mat) : Mat :=
  Mat.mk' a.rows b.cols (fun i j => ∑ k in Finset.range a.cols, a.entry i k * b.entry k j)

/-- Matrix transpose. -/
def Mat.transpose (a : Mat) : Mat :=
  Mat.mk' a.cols a.rows (fun i j => a.entry j i)

/-- Entrywise sum; shape taken from the left operand. -/
def Mat.add (a b : Mat) : Mat :=
  Mat.mk' a.rows a.cols (fun i j => a.entry i j + b.entry i j)

/-- Entrywise difference; shape taken from the left operand. -/
def Mat.sub (a b : Mat) : Mat :=
  Mat.mk' a.rows a.cols (fun i j => a.entry i j - b.entry i j)

/-- Add a row vector to every row (Eigen `m.rowwise() += v.transpose()`). -/
def Mat.addRowVec (a : Mat) (v : Vec) : Mat :=
  Mat.mk' a.rows a.cols (fun i j => a.entry i j + v.entry j)

/-- Extract the block of shape `nr × nc` whose top-left corner is `(r0, c0)`. -/
def Mat.block (a : Mat) (r0 c0 nr nc : ℕ) : Mat :=
  Mat.mk' nr nc (fun i j => a.entry (r0 + i) (c0 + j))

/-- Overwrite the block with top-left corner `(r0, c0)` by the matrix `b`. -/
def Mat.setBlock (a : Mat) (r0 c0 : ℕ) (b : Mat) : Mat :=
  Mat.mk' a.rows a.cols (fun i j =>
    if r0 ≤ i ∧ i < r0 + b.rows ∧ c0 ≤ j ∧ j < c0 + b.cols then
      b.entry (i - r0) (j - c0)
    else a.entry i j)

/-- Row `i` as a vector. -/
def Mat.row (a : Mat) (i : ℕ) : Vec :=
  Vec.mk' a.cols (fun j => a.entry i j)

/-- Column `j` as a vector. -/
def Mat.colVec (a : Mat) (j : ℕ) : Vec :=
  Vec.mk' a.rows (fun i => a.entry i j)

/-- Overwrite row `i` by the vector `v`. -/
def Mat.setRow (a : Mat) (i : ℕ) (v : Vec) : Mat :=
  Mat.mk' a.rows a.cols (fun r c => if r = i then v.entry c else a.entry r c)

/-- Overwrite the main diagonal by the vector `v`
(Eigen `m.diagonal() = v`). -/
def Mat.setDiag (a : Mat) (v : Vec) : Mat :=
  Mat.mk' a.rows a.cols (fun r c => if r = c then v.entry r else a.entry r c)

/-- The main diagonal as a vector (square use only). -/
def Mat.diag (a : Mat) : Vec :=
  Vec.mk' a.rows (fun i => a.entry i i)

/-- The last `n` rows (Eigen `m.bottomRows(n)`). -/
def Mat.bottomRows (a : Mat) (n : ℕ) : Mat :=
  Mat.mk' n a.cols (fun i j => a.entry (a.rows - n + i) j)

/-- The first `n` rows (Eigen `m.topRows(n)`). -/
def Mat.topRows (a : Mat) (n : ℕ) : Mat :=
  Mat.mk' n a.cols (fun i j => a.entry i j)

/-- The `n × n` identity matrix. -/
def Mat.identity (n : ℕ) : Mat :=
  Mat.mk' n n (fun i j => if i = j then 1 else 0)

/-- The `r × c` zero matrix. -/
def Mat.zero (r c : ℕ) : Mat :=
  Mat.mk' r c (fun _ _ => 0)

/-- Kronecker product (`kronecker_eigen` of `bvhardraw.h`; behaviour fixed by
the Eigen KroneckerProduct contract used at the call sites). -/
def kronecker_eigen (a b : Mat) : Mat :=
  Mat.mk' (a.rows * b.rows) (a.cols * b.cols) (fun i j =>
    a.entry (i / b.rows) (j / b.cols) * b.entry (i % b.rows) (j % b.cols))

/-- Column-major vectorisation (`vectorize_eigen` of `bvhardraw.h`; the spec
describes the stacked response vector, and Eigen stores column-major). -/
def vectorize_eigen (m : Mat) : Vec :=
  Vec.mk' (m.rows * m.cols) (fun k => m.entry (k % m.rows) (k / m.rows))

/-- Column-major un-vectorisation (`unvectorize` of `bvhardraw.h`), the
inverse reshaping of `vectorize_eigen` to an `r × c` matrix. -/
def unvectorize (v : Vec) (r c : ℕ) : Mat :=
  Mat.mk' r c (fun i j => v.entry (j * r + i))

/-- Subvector of length `n` starting at index `s` (Eigen `v.segment(s, n)`). -/
def Vec.segment (v : Vec) (s n : ℕ) : Vec :=
  Vec.mk' n (fun k => v.entry (s + k))

/-- A default-stride `Eigen::Map<Eigen::MatrixXd>(rec.row(i).data(), r, c)`
over a column-major matrix `rec`.  `rec.row(i).data()` is the address of
entry `(i, 0)`, at linear storage offset `i`, and the map then reads `r·c`
consecutive doubles: map entry `(a, b)` is the storage cell at offset
`i + b·r + a`, which in the column-major layout is the record entry at row
`(i + b·r + a) % rec.rows` and column `(i + b·r + a) / rec.rows` — not the
reshape of row `i` (row `i` is not contiguous) unless the record has a
single row or a single column. -/
def rowDataMap (rec : Mat) (i r c : ℕ) : Mat :=
  Mat.mk' r c (fun a b =>
    rec.entry ((i + b * r + a) % rec.rows) ((i + b * r + a) / rec.rows))

/-- Whether an `Except` result is a success. -/
def exOk {ε α : Type} : Except ε α → Bool
  | Except.ok _ => true
  | Except.error _ => false

/-! ## `src/generate-distn.cpp`

The external primitives of the companion random-matrix services.
`normRand n` is the value produced by the `n`-th call of `norm_rand()`;
`chisqRand df n` is the value produced by a call of `chisq_rand(df)` at
draw-counter position `n`; `sqrtQ` is the C `sqrt`.  `matSqrt`, `cholLower`,
`cholUpper` and `matInv` stand for the Eigen kernels `m.sqrt()`,
`llt.matrixL()`, `llt.matrixU()` and `m.inverse()`; no claim depends on
their numeric values, only (for some claims) on their Eigen shape contract,
which is stated separately as `PrimShapeOK`. -/
structure Prim where
  normRand : ℕ → ℚ
  chisqRand : ℚ → ℕ → ℚ
  sqrtQ : ℚ → ℚ
  matSqrt : Mat → Mat
  cholLower : Mat → Mat
  cholUpper : Mat → Mat
  matInv : Mat → Mat

/-- The Eigen shape contract of the abstract numeric kernels: each maps an
`n × n` matrix to an `n × n` matrix. -/
def PrimShapeOK (p : Prim) : Prop :=
  (∀ m : Mat, (p.matSqrt m).rows = m.rows ∧ (p.matSqrt m).cols = m.cols) ∧
  (∀ m : Mat, (p.cholLower m).rows = m.rows ∧ (p.cholLower m).cols = m.cols) ∧
  (∀ m : Mat, (p.cholUpper m).rows = m.rows ∧ (p.cholUpper m).cols = m.cols) ∧
  (∀ m : Mat, (p.matInv m).rows = m.rows ∧ (p.matInv m).cols = m.cols)

/-- Fill an `r × c` matrix with standard-normal draws in row direction
(`for i < r: for j < c: m(i, j) = norm_rand()`), returning the advanced
draw counter. -/
def drawNormMat (p : Prim) (r c pos : ℕ) : Mat × ℕ :=
  (Mat.mk' r c (fun i j => p.normRand (pos + i * c + j)), pos + r * c)

/-- `sim_mgaussian` from `generate-distn.cpp` (error messages shortened to
drop the C quote characters).  Validation happens before any draw; the
symmetry check present in the C++ source is commented out there and hence
absent here as well. -/
def sim_mgaussian (p : Prim) (num_sim : ℕ) (mu : Vec) (sig : Mat) (pos : ℕ) :
    Except String Mat × ℕ :=
  let dim := sig.cols
  if sig.rows ≠ dim then (Except.error "Invalid sig dimension.", pos)
  else if dim ≠ mu.size then (Except.error "Invalid mu size.", pos)
  else
    let z := drawNormMat p num_sim dim pos
    (Except.ok ((z.1.mul (p.matSqrt sig)).addRowVec mu), z.2)

/-- `sim_mgaussian_chol` from `generate-distn.cpp`: as `sim_mgaussian` but
multiplying by the upper Cholesky factor of `sig`. -/
def sim_mgaussian_chol (p : Prim) (num_sim : ℕ) (mu : Vec) (sig : Mat) (pos : ℕ) :
    Except String Mat × ℕ :=
  let dim := sig.cols
  if sig.rows ≠ dim then (Except.error "Invalid sig dimension.", pos)
  else if dim ≠ mu.size then (Except.error "Invalid mu size.", pos)
  else
    let z := drawNormMat p num_sim dim pos
    (Except.ok ((z.1.mul (p.cholUpper sig)).addRowVec mu), z.2)

/-- `sim_matgaussian` from `generate-distn.cpp`: one matrix-normal draw
`M + L_u Z L_vᵀ`; all four dimension checks precede the draws. -/
def sim_matgaussian (p : Prim) (mat_mean mat_scale_u mat_scale_v : Mat) (pos : ℕ) :
    Except String Mat × ℕ :=
  let num_rows := mat_mean.rows
  let num_cols := mat_mean.cols
  if mat_scale_u.rows ≠ mat_scale_u.cols then
    (Except.error "Invalid mat_scale_u dimension.", pos)
  else if num_rows ≠ mat_scale_u.rows then
    (Except.error "Invalid mat_scale_u dimension.", pos)
  else if mat_scale_v.rows ≠ mat_scale_v.cols then
    (Except.error "Invalid mat_scale_v dimension.", pos)
  else if num_cols ≠ mat_scale_v.rows then
    (Except.error "Invalid mat_scale_v dimension.", pos)
  else
    let chol_u := p.cholLower mat_scale_u
    let chol_v := p.cholLower mat_scale_v
    let z := drawNormMat p num_rows num_cols pos
    (Except.ok (mat_mean.add (chol_u.mul (z.1.mul chol_v.transpose))), z.2)

/-- Upper-triangular Bartlett factor drawn in row direction: diagonal
`sqrt(chisq_rand(shape - i))`, strict upper triangle standard normal.
Row `i` consumes `dim - i` draws. -/
def bartlett (p : Prim) (dim : ℕ) (shape : ℚ) (pos : ℕ) : Mat :=
  Mat.mk' dim dim (fun i j =>
    let rowStart := pos + ∑ k in Finset.range i, (dim - k)
    if i = j then p.sqrtQ (p.chisqRand (shape - i) rowStart)
    else if i < j then p.normRand (rowStart + (j - i))
    else 0)

/-- Total number of draws consumed by one Bartlett factor of size `dim`. -/
def bartlettDraws (dim : ℕ) : ℕ :=
  ∑ k in Finset.range dim, (dim - k)

/-- `sim_iw_tri` from `generate-distn.cpp`: lower-triangular factor
`L (Q⁻¹)ᵀ` of an inverse-Wishart draw.  The shape check `shape ≤ dim - 1`
comes first, before any draw; `dim` is `mat_scale.cols()` as in the source. -/
def sim_iw_tri (p : Prim) (mat_scale : Mat) (shape : ℚ) (pos : ℕ) :
    Except String Mat × ℕ :=
  let dim := mat_scale.cols
  if shape ≤ (dim : ℚ) - 1 then
    (Except.error "Wrong shape. shape > dim - 1 must be satisfied.", pos)
  else if mat_scale.rows ≠ mat_scale.cols then
    (Except.error "Invalid mat_scale dimension.", pos)
  else if dim ≠ mat_scale.rows then
    (Except.error "Invalid mat_scale dimension.", pos)
  else
    let q := bartlett p dim shape pos
    let chol_scale := p.cholLower mat_scale
    (Except.ok (chol_scale.mul ((p.matInv q).transpose)), pos + bartlettDraws dim)

/-- `sim_iw` from `generate-distn.cpp`: `A Aᵀ` for the `sim_iw_tri` factor. -/
def sim_iw (p : Prim) (mat_scale : Mat) (shape : ℚ) (pos : ℕ) :
    Except String Mat × ℕ :=
  match sim_iw_tri p mat_scale shape pos with
  | (Except.error e, pos1) => (Except.error e, pos1)
  | (Except.ok chol_res, pos1) => (Except.ok (chol_res.mul chol_res.transpose), pos1)

/-- Loop body of `sim_mniw`: for each simulation draw the inverse-Wishart
factor, then the matrix-normal draw, writing both into column blocks of the
accumulators.  An `Rcpp::stop` in a callee aborts the whole call (no partial
output), modelled by propagating the error. -/
def mniwLoop (p : Prim) (mat_mean mat_scale_u mat_scale : Mat) (shape : ℚ)
    (ncol_mn dim_iw : ℕ) :
    ℕ → ℕ → Mat → Mat → ℕ → Except String (Mat × Mat) × ℕ
  | 0, _, res_mn, res_iw, pos => (Except.ok (res_mn, res_iw), pos)
  | n + 1, i, res_mn, res_iw, pos =>
    match sim_iw_tri p mat_scale shape pos with
    | (Except.error e, pos1) => (Except.error e, pos1)
    | (Except.ok chol_res, pos1) =>
      let mat_scale_v := chol_res.mul chol_res.transpose
      let res_iw1 := res_iw.setBlock 0 (i * dim_iw) mat_scale_v
      match sim_matgaussian p mat_mean mat_scale_u mat_scale_v pos1 with
      | (Except.error e, pos2) => (Except.error e, pos2)
      | (Except.ok ymat, pos2) =>
        mniwLoop p mat_mean mat_scale_u mat_scale shape ncol_mn dim_iw
          n (i + 1) (res_mn.setBlock 0 (i * ncol_mn) ymat) res_iw1 pos2

/-- `sim_mniw` from `generate-distn.cpp`.  Only the squareness of the
inverse-Wishart scale is checked up front; all other validation happens
inside the loop (inside `sim_iw_tri` and `sim_matgaussian`).  The result
accumulators are uninitialised Eigen memory in the source; they are
modelled as zero, which no claim depends on. -/
def sim_mniw (p : Prim) (num_sim : ℕ) (mat_mean mat_scale_u mat_scale : Mat)
    (shape : ℚ) (pos : ℕ) : Except String (Mat × Mat) × ℕ :=
  let ncol_mn := mat_mean.cols
  let nrow_mn := mat_mean.rows
  let dim_iw := mat_scale.cols
  if dim_iw ≠ mat_scale.rows then (Except.error "Invalid mat_scale dimension.", pos)
  else
    mniwLoop p mat_mean mat_scale_u mat_scale shape ncol_mn dim_iw
      num_sim 0 (Mat.zero nrow_mn (num_sim * ncol_mn))
      (Mat.zero dim_iw (num_sim * dim_iw)) pos

/-! ## `src/estimate-sv.cpp`

Most helper samplers called by `estimate_var_sv` live in `bvhardraw.h`,
which is code of this repository not present under `src/`.  The
RNG-consuming helpers are kept fully abstract (fields of `SvExt` below,
indexed by the iteration and a per-iteration call tag: the run uses each
(iteration, tag) pair at most once, so this indexing is a faithful
reparameterisation of a sequential random stream).  The deterministic
helpers (`build_inv_lower`, `build_ssvs_sd`, `build_shrink_mat`,
`varsv_sigh`, `varsv_h0`, `vectorize_eigen`, `kronecker_eigen`,
`unvectorize`) are modelled concretely from the specification, each with a
doc comment saying so. -/

/-- Integer-valued vector (the `grp_id` argument is `Eigen::VectorXi`). -/
structure VecZ where
  size : ℕ
  entry : ℕ → ℤ

/-- External collaborators of `estimate_var_sv`: the RNG-consuming helper
samplers of `bvhardraw.h` (not under `src/`), the Eigen numeric kernels and
the C `log`/`exp`.  Each sampler takes the iteration index and a call tag so
that distinct calls in one sweep consume distinct randomness. -/
structure SvExt where
  reg_draw : ℕ → ℕ → Mat → Vec → Vec → Mat → Mat → Vec
  ht_draw : ℕ → ℕ → Vec → ℚ → ℚ → Vec → ℕ → Vec
  ig_draw : ℕ → ℕ → ℚ → ℚ → ℚ
  gauss_draw : ℕ → ℕ → ℚ → ℚ → ℚ
  ssvs_dummy_draw : ℕ → ℕ → Vec → Vec → Vec → Vec → Vec
  ssvs_mn_weight_draw : ℕ → Vec → VecZ → Vec → ℚ → ℚ → Vec
  ssvs_weight_draw : ℕ → Vec → ℚ → ℚ → Vec
  hs_latent_draw : ℕ → ℕ → Vec → Vec
  hs_local_draw : ℕ → ℕ → Vec → Vec → Vec → ℚ → Vec
  hs_mn_global_draw : ℕ → Vec → VecZ → Vec → Vec → Vec → ℚ → Vec
  hs_global_draw : ℕ → ℚ → Vec → Vec → ℚ → ℚ
  lltSolve : Mat → Mat → Mat
  matInv : Mat → Mat
  logQ : ℚ → ℚ
  expQ : ℚ → ℚ

/-- Modelled from the spec: `build_inv_lower` of `bvhardraw.h` is not under
`src/`.  Per the glossary (lower-triangular factor linking simultaneous
residuals) and the source comment `L in Sig_t^(-1) = L D_t^(-1) LT`, it is
the unit lower-triangular matrix whose strictly-lower part holds the
loading vector, in the layout forced by the `reginnov_stack` construction
of `estimate-sv.cpp` (row `j` reads positions `j(j-1)/2 .. j(j-1)/2+j-1`). -/
def build_inv_lower (dim : ℕ) (a : Vec) : Mat :=
  Mat.mk' dim dim (fun i j =>
    if i = j then 1
    else if j < i then a.entry (i * (i - 1) / 2 + j)
    else 0)

/-- Modelled from the spec: `build_ssvs_sd` of `bvhardraw.h` is not under
`src/`.  Per spec §4.3(a): the conditional prior sd is the spike sd when
the inclusion indicator is 0, else the slab sd. -/
def build_ssvs_sd (spike slab dummy : Vec) : Vec :=
  Vec.mk' spike.size (fun j =>
    if dummy.entry j = 0 then spike.entry j else slab.entry j)

/-- Modelled from the spec: `build_shrink_mat` of `bvhardraw.h` is not under
`src/`.  Per spec §4.4: the prior precision is diagonal with entries
`1 / (local² · global²)`. -/
def build_shrink_mat (glob loc : Vec) : Mat :=
  Mat.mk' loc.size loc.size (fun r c =>
    if r = c then 1 / (loc.entry r ^ 2 * glob.entry r ^ 2) else 0)

/-- Modelled from the spec: `varsv_sigh` of `bvhardraw.h` is not under
`src/`.  Per spec §4.5: each equation's innovation variance is resampled
from an inverse-gamma posterior built from the prior shape/scale plus the
sum of squared path increments (first increment taken from the initial
state).  The inverse-gamma draw itself is the external `ig_draw`. -/
def varsv_sigh (ext : SvExt) (i : ℕ) (shp scl h0_prev : Vec) (h_block : Mat) : Vec :=
  Vec.mk' shp.size (fun j =>
    ext.ig_draw i j (shp.entry j + (h_block.rows : ℚ) / 2)
      (scl.entry j + (∑ t in Finset.range h_block.rows,
        (h_block.entry t j -
          (if t = 0 then h0_prev.entry j else h_block.entry (t - 1) j)) ^ 2) / 2))

/-- Modelled from the spec: `varsv_h0` of `bvhardraw.h` is not under
`src/`.  Per spec §4.5: `h0` is resampled from the Gaussian posterior
combining its prior with the first path value, precision-weighted by the
innovation variance.  The source also passes the previous `h0`, which the
spec posterior does not use; the Gaussian draw itself is the external
`gauss_draw` (mean, precision). -/
def varsv_h0 (ext : SvExt) (i : ℕ) (pm : Vec) (pp : Mat) (h0_prev h1 sig : Vec) : Vec :=
  Vec.mk' pm.size (fun j =>
    let post_prec := pp.entry j j + 1 / sig.entry j
    ext.gauss_draw i j
      ((pp.entry j j * pm.entry j + h1.entry j / sig.entry j) / post_prec) post_prec)

/-- The repeated Eigen `select` pattern of `estimate-sv.cpp`: iterate over
the group ids in ascending order, overwriting every entry of the carry
matrix whose `grp_mat` entry equals the group id by that group's value; a
later group overwrites an earlier one, and unmatched entries keep the
carried value. -/
def grpSelect (grp_mat : Mat) (grp_id : VecZ) (vals : ℕ → ℚ) (r c : ℕ) :
    ℕ → Mat → Mat
  | 0, carry => carry
  | n + 1, carry =>
    Mat.mk' r c (fun i j =>
      if grp_mat.entry i j = (grp_id.entry n : ℚ) then vals n
      else (grpSelect grp_mat grp_id vals r c n carry).entry i j)

/-- The entry parameters of `estimate_var_sv` (the `display_progress` flag
only controls the progress bar, which is not modelled; cancellation is the
separate `abortAt` parameter of the loop). -/
structure SvCfg where
  num_iter : ℕ
  num_burn : ℕ
  x : Mat
  y : Mat
  prior_coef_mean : Mat
  prior_coef_prec : Mat
  prec_diag : Mat
  prior_type : ℤ
  init_local : Vec
  init_global : Vec
  init_contem_local : Vec
  init_contem_global : Vec
  grp_id : VecZ
  grp_mat : Mat
  coef_spike : Vec
  coef_slab : Vec
  coef_slab_weight : Vec
  chol_spike : Vec
  chol_slab : Vec
  chol_slab_weight : Vec
  coef_s1 : ℚ
  coef_s2 : ℚ
  chol_s1 : ℚ
  chol_s2 : ℚ
  mean_non : Vec
  sd_non : ℚ
  include_mean : Bool
  nthreads : ℕ

/-- `dim = y.cols()`. -/
def SvCfg.dim (cfg : SvCfg) : ℕ := cfg.y.cols

/-- `dim_design = x.cols()`. -/
def SvCfg.dimDesign (cfg : SvCfg) : ℕ := cfg.x.cols

/-- `num_design = y.rows()`. -/
def SvCfg.numDesign (cfg : SvCfg) : ℕ := cfg.y.rows

/-- `num_lowerchol = dim * (dim - 1) / 2`. -/
def SvCfg.numLowerchol (cfg : SvCfg) : ℕ := cfg.dim * (cfg.dim - 1) / 2

/-- `num_coef = dim * dim_design`. -/
def SvCfg.numCoef (cfg : SvCfg) : ℕ := cfg.dim * cfg.dimDesign

/-- `num_alpha`: `num_coef - dim`, restored to `num_coef` when there is no
mean column. -/
def SvCfg.numAlpha (cfg : SvCfg) : ℕ :=
  if cfg.include_mean then cfg.numCoef - cfg.dim else cfg.numCoef

/-- `num_grp = grp_id.size()`. -/
def SvCfg.numGrp (cfg : SvCfg) : ℕ := cfg.grp_id.size

/-- The SUR design matrix `kron(I_dim, x)`. -/
def SvCfg.designMat (cfg : SvCfg) : Mat := kronecker_eigen (Mat.identity cfg.dim) cfg.x

/-- The stacked response vector `vec(y)`. -/
def SvCfg.responseVec (cfg : SvCfg) : Vec := vectorize_eigen cfg.y

/-- `grp_vec = vec(grp_mat)`. -/
def grpVec (cfg : SvCfg) : Vec := vectorize_eigen cfg.grp_mat

/-- The prior mean of the coefficient vector, per the regime switch of the
preamble (lines 86-104).  For an unrecognised tag the C++ vector stays
default-constructed (uninitialised memory); it is modelled as zero, which
no claim depends on. -/
def priorAlphaMean (cfg : SvCfg) : Vec :=
  if cfg.prior_type = 1 then vectorize_eigen cfg.prior_coef_mean
  else if cfg.prior_type = 2 then
    (if cfg.include_mean then
      Vec.mk' cfg.numCoef (fun k =>
        if k % cfg.dimDesign = cfg.numAlpha / cfg.dim then
          cfg.mean_non.entry (k / cfg.dimDesign)
        else 0)
    else Vec.mk' cfg.numAlpha (fun _ => 0))
  else if cfg.prior_type = 3 then Vec.mk' cfg.numCoef (fun _ => 0)
  else Vec.mk' cfg.numCoef (fun _ => 0)

/-- `prior_sig_shp = 3 * 1_dim`. -/
def priorSigShp (cfg : SvCfg) : Vec := Vec.mk' cfg.dim (fun _ => 3)

/-- `prior_sig_scl = .01 * 1_dim`. -/
def priorSigScl (cfg : SvCfg) : Vec := Vec.mk' cfg.dim (fun _ => 1 / 100)

/-- `prior_init_mean = 1_dim`. -/
def priorInitMean (cfg : SvCfg) : Vec := Vec.mk' cfg.dim (fun _ => 1)

/-- `prior_init_prec = I_dim / 10`. -/
def priorInitPrec (cfg : SvCfg) : Mat :=
  Mat.mk' cfg.dim cfg.dim (fun r c => if r = c then 1 / 10 else 0)

/-- `prior_chol_mean = 0`. -/
def priorCholMean (cfg : SvCfg) : Vec := Vec.mk' cfg.numLowerchol (fun _ => 0)

/-- The mutable state threaded through the Gibbs loop: the twelve history
matrices plus the loop-carried working variables that survive from one
iteration to the next (`init_local`, `init_contem_local`,
`init_contem_global`, `chol_slab_weight`, the two prior precision matrices
and the two `select` accumulators). -/
structure SvState where
  coef_record : Mat
  contem_coef_record : Mat
  lvol_sig_record : Mat
  lvol_init_record : Mat
  lvol_record : Mat
  coef_dummy_record : Mat
  coef_weight_record : Mat
  contem_dummy_record : Mat
  contem_weight_record : Mat
  local_record : Mat
  global_record : Mat
  shrink_record : Mat
  init_local : Vec
  init_contem_local : Vec
  init_contem_global : Vec
  chol_slab_weight : Vec
  prior_alpha_prec : Mat
  prior_chol_prec : Mat
  slab_weight_mat : Mat
  global_shrinkage_mat : Mat

/-- The history slices that iteration `i` of the sweep reads: row `i-1` of
the loading, initial-state, variance, SSVS and horseshoe records, the
`i-1` volatility block, and the whole coefficient record — the stride-less
map of line 298 reads `num_coef` consecutive storage cells starting at
entry `(i, 0)`, which touch rows of the record other than `i`. -/
structure SvPrev where
  a_prev : Vec
  h_prev : Mat
  h0_prev : Vec
  sig_prev : Vec
  coef_dummy_prev : Vec
  coef_weight_prev : Vec
  local_prev : Vec
  global_prev : Vec
  coef_rec : Mat

/-- Extract the slices that iteration `i` reads from the state. -/
def svPrevOf (cfg : SvCfg) (i : ℕ) (st : SvState) : SvPrev :=
  ⟨st.contem_coef_record.row (i - 1),
   st.lvol_record.block (cfg.numDesign * (i - 1)) 0 cfg.numDesign cfg.dim,
   st.lvol_init_record.row (i - 1),
   st.lvol_sig_record.row (i - 1),
   st.coef_dummy_record.row (i - 1),
   st.coef_weight_record.row (i - 1),
   st.local_record.row (i - 1),
   st.global_record.row (i - 1),
   st.coef_record⟩

/-- The loop-carried working variables. -/
structure SvCarry where
  init_local : Vec
  init_contem_local : Vec
  init_contem_global : Vec
  chol_slab_weight : Vec
  prior_alpha_prec : Mat
  prior_chol_prec : Mat
  slab_weight_mat : Mat
  global_shrinkage_mat : Mat

/-- Project the carried working variables out of the state. -/
def svCarryOf (st : SvState) : SvCarry :=
  ⟨st.init_local, st.init_contem_local, st.init_contem_global,
   st.chol_slab_weight, st.prior_alpha_prec, st.prior_chol_prec,
   st.slab_weight_mat, st.global_shrinkage_mat⟩

/-- Output of step 1 (the coefficient update) of one sweep: the drawn
coefficient row (absent for an unrecognised regime, whose switch has no
default case and assigns nothing), the regime-extra rows, and the updated
carried variables this step owns. -/
structure CoefStepOut where
  coef_row : Option Vec
  coef_dummy_row : Option Vec
  coef_weight_row : Option Vec
  local_row : Option Vec
  global_row : Option Vec
  shrink_row_im1 : Option Vec
  prior_alpha_prec : Mat
  init_local : Vec
  slab_weight_mat : Mat
  global_shrinkage_mat : Mat

/-- Output of step 3 (the correlation-loading update) of one sweep. -/
structure ContemStepOut where
  contem_row : Vec
  contem_dummy_row : Option Vec
  contem_weight_row : Option Vec
  chol_slab_weight : Vec
  prior_chol_prec : Mat
  init_contem_local : Vec
  init_contem_global : Vec

/-- Everything one sweep writes: the five always-written components, the
regime extras, and the carried variables. -/
structure SvDraws where
  coef_row : Option Vec
  h_block : Mat
  contem_row : Vec
  sig_row : Vec
  h0_row : Vec
  coef_dummy_row : Option Vec
  coef_weight_row : Option Vec
  contem_dummy_row : Option Vec
  contem_weight_row : Option Vec
  local_row : Option Vec
  global_row : Option Vec
  shrink_row_im1 : Option Vec
  carry : SvCarry

/-- Step 1 of the sweep (`// 1. alpha`, lines 199-296): the regime switch
drawing the coefficient row.  An unrecognised tag falls through the switch
without assigning anything. -/
def svCoefStep (cfg : SvCfg) (ext : SvExt) (i : ℕ) (pv : SvPrev) (cr : SvCarry)
    (prec_stack : Mat) : CoefStepOut :=
  if cfg.prior_type = 1 then
    { coef_row := some (ext.reg_draw i 0 cfg.designMat cfg.responseVec
        (priorAlphaMean cfg) cr.prior_alpha_prec prec_stack),
      coef_dummy_row := none, coef_weight_row := none, local_row := none,
      global_row := none, shrink_row_im1 := none,
      prior_alpha_prec := cr.prior_alpha_prec, init_local := cr.init_local,
      slab_weight_mat := cr.slab_weight_mat,
      global_shrinkage_mat := cr.global_shrinkage_mat }
  else if cfg.prior_type = 2 then
    let coef_mixture := build_ssvs_sd cfg.coef_spike cfg.coef_slab pv.coef_dummy_prev
    let prior_sd : Vec :=
      if cfg.include_mean then
        Vec.mk' cfg.numCoef (fun k =>
          if k % cfg.dimDesign = cfg.numAlpha / cfg.dim then cfg.sd_non
          else coef_mixture.entry
            ((k / cfg.dimDesign) * (cfg.numAlpha / cfg.dim) + k % cfg.dimDesign))
      else coef_mixture
    let pap := cr.prior_alpha_prec.setDiag
      (Vec.mk' cr.prior_alpha_prec.rows (fun k => 1 / prior_sd.entry k ^ 2))
    let coef_row := ext.reg_draw i 0 cfg.designMat cfg.responseVec
      (priorAlphaMean cfg) pap prec_stack
    let coef_mat := unvectorize coef_row cfg.dimDesign cfg.dim
    let swm := grpSelect cfg.grp_mat cfg.grp_id (fun j => pv.coef_weight_prev.entry j)
      (cfg.numAlpha / cfg.dim) cfg.dim cfg.numGrp cr.slab_weight_mat
    let slab_weight := vectorize_eigen swm
    let coef_dummy := ext.ssvs_dummy_draw i 0
      (vectorize_eigen (coef_mat.topRows (cfg.numAlpha / cfg.dim)))
      cfg.coef_slab cfg.coef_spike slab_weight
    let coef_weight := ext.ssvs_mn_weight_draw i (grpVec cfg) cfg.grp_id coef_dummy
      cfg.coef_s1 cfg.coef_s2
    { coef_row := some coef_row, coef_dummy_row := some coef_dummy,
      coef_weight_row := some coef_weight, local_row := none, global_row := none,
      shrink_row_im1 := none, prior_alpha_prec := pap, init_local := cr.init_local,
      slab_weight_mat := swm, global_shrinkage_mat := cr.global_shrinkage_mat }
  else if cfg.prior_type = 3 then
    let gsm := grpSelect cfg.grp_mat cfg.grp_id (fun j => pv.global_prev.entry j)
      cfg.dimDesign cfg.dim cfg.numGrp cr.global_shrinkage_mat
    let global_shrinkage := vectorize_eigen gsm
    let pap := build_shrink_mat global_shrinkage cr.init_local
    let shrink_row := (ext.matInv ((Mat.identity cfg.numCoef).add pap)).diag
    let coef_row := ext.reg_draw i 0 cfg.designMat cfg.responseVec
      (priorAlphaMean cfg) pap prec_stack
    let latent_local := ext.hs_latent_draw i 0 pv.local_prev
    let latent_global := ext.hs_latent_draw i 1 pv.global_prev
    let il := ext.hs_local_draw i 0 latent_local global_shrinkage coef_row 1
    let gl := ext.hs_mn_global_draw i (grpVec cfg) cfg.grp_id latent_global il coef_row 1
    { coef_row := some coef_row, coef_dummy_row := none, coef_weight_row := none,
      local_row := some il, global_row := some gl, shrink_row_im1 := some shrink_row,
      prior_alpha_prec := pap, init_local := il, slab_weight_mat := cr.slab_weight_mat,
      global_shrinkage_mat := gsm }
  else
    { coef_row := none, coef_dummy_row := none, coef_weight_row := none,
      local_row := none, global_row := none, shrink_row_im1 := none,
      prior_alpha_prec := cr.prior_alpha_prec, init_local := cr.init_local,
      slab_weight_mat := cr.slab_weight_mat,
      global_shrinkage_mat := cr.global_shrinkage_mat }

/-- The stacked residual design `reginnov_stack` of step 3 (lines 311-317):
row `j` of time block `t` holds the negated leading `j` residuals of time
`t`, at columns `j(j-1)/2 .. j(j-1)/2 + j - 1`. -/
def reginnovStack (cfg : SvCfg) (latent_innov : Mat) : Mat :=
  Mat.mk' (cfg.numDesign * cfg.dim) cfg.numLowerchol (fun a c =>
    let j := a % cfg.dim
    if j * (j - 1) / 2 ≤ c ∧ c < j * (j - 1) / 2 + j then
      -(latent_innov.entry (a / cfg.dim) (c - j * (j - 1) / 2))
    else 0)

/-- Step 3 of the sweep (`// 3. a`, lines 310-360): build the stacked
residual design, run the regime switch for the loading prior, and draw the
loading row.  Note the regression uses `innov_prec`, which was built from
the previous iteration's volatility block. -/
def svContemStep (cfg : SvCfg) (ext : SvExt) (i : ℕ) (pv : SvPrev) (cr : SvCarry)
    (latent_innov innov_prec : Mat) : ContemStepOut :=
  let reginnov_stack := reginnovStack cfg latent_innov
  if cfg.prior_type = 2 then
    let contem_dummy := ext.ssvs_dummy_draw i 1 pv.a_prev cfg.chol_slab cfg.chol_spike
      cr.chol_slab_weight
    let new_weight := ext.ssvs_weight_draw i contem_dummy cfg.chol_s1 cfg.chol_s2
    let pcp := cr.prior_chol_prec.setDiag
      (Vec.mk' cr.prior_chol_prec.rows (fun k =>
        1 / (build_ssvs_sd cfg.chol_spike cfg.chol_slab contem_dummy).entry k ^ 2))
    let a_row := ext.reg_draw i 1 reginnov_stack (vectorize_eigen latent_innov)
      (priorCholMean cfg) pcp innov_prec
    ⟨a_row, some contem_dummy, some new_weight, new_weight, pcp,
      cr.init_contem_local, cr.init_contem_global⟩
  else if cfg.prior_type = 3 then
    let latent_cl := ext.hs_latent_draw i 2 cr.init_contem_local
    let latent_cg := ext.hs_latent_draw i 3 cr.init_contem_global
    let contem_global := Vec.mk' (cr.init_contem_global.size * cfg.numLowerchol)
      (fun k => cr.init_contem_global.entry (k % cr.init_contem_global.size))
    let icl := ext.hs_local_draw i 1 latent_cl contem_global pv.a_prev 1
    let icg := Vec.mk' cr.init_contem_global.size (fun k =>
      if k = 0 then ext.hs_global_draw i (latent_cg.entry 0) latent_cl pv.a_prev 1
      else cr.init_contem_global.entry k)
    let pcp := build_shrink_mat contem_global icl
    let a_row := ext.reg_draw i 1 reginnov_stack (vectorize_eigen latent_innov)
      (priorCholMean cfg) pcp innov_prec
    ⟨a_row, none, none, cr.chol_slab_weight, pcp, icl, icg⟩
  else
    let a_row := ext.reg_draw i 1 reginnov_stack (vectorize_eigen latent_innov)
      (priorCholMean cfg) cr.prior_chol_prec innov_prec
    ⟨a_row, none, none, cr.chol_slab_weight, cr.prior_chol_prec,
      cr.init_contem_local, cr.init_contem_global⟩

/-- The block-diagonal innovation precision `D⁻¹` built at the top of the
sweep from the previous volatility block (lines 201-206): block `t` is
`diag(exp(-h_{t}))`. -/
def svInnovPrec (cfg : SvCfg) (ext : SvExt) (pv : SvPrev) : Mat :=
  Mat.mk' (cfg.numDesign * cfg.dim) (cfg.numDesign * cfg.dim) (fun a b =>
    if a = b then ext.expQ (-(pv.h_prev.entry (a / cfg.dim) (a % cfg.dim))) else 0)

/-- The block-diagonal residual precision `Σ⁻¹` with block
`Lᵀ D_t⁻¹ L` (line 205). -/
def svPrecStack (cfg : SvCfg) (ext : SvExt) (pv : SvPrev) : Mat :=
  let chol_lower := build_inv_lower cfg.dim pv.a_prev
  let innov_prec := svInnovPrec cfg ext pv
  Mat.mk' (cfg.numDesign * cfg.dim) (cfg.numDesign * cfg.dim) (fun a b =>
    if a / cfg.dim = b / cfg.dim then
      ((chol_lower.transpose.mul
        (innov_prec.block ((a / cfg.dim) * cfg.dim) ((a / cfg.dim) * cfg.dim)
          cfg.dim cfg.dim)).mul chol_lower).entry (a % cfg.dim) (b % cfg.dim)
    else 0)

/-- Step 1 applied to the sweep's inputs. -/
def svCoefOut (cfg : SvCfg) (ext : SvExt) (i : ℕ) (pv : SvPrev) (cr : SvCarry) :
    CoefStepOut :=
  svCoefStep cfg ext i pv cr (svPrecStack cfg ext pv)

/-- Write a row into a record only when the sweep produced one. -/
def optSetRow (m : Mat) (i : ℕ) : Option Vec → Mat
  | some v => m.setRow i v
  | none => m

/-- The coefficient record after step 1: row `i` overwritten by the drawn
row, or unchanged under an unrecognised regime, which draws nothing. -/
def svCoefRecAfter (cfg : SvCfg) (ext : SvExt) (i : ℕ) (pv : SvPrev) (cr : SvCarry) :
    Mat :=
  optSetRow pv.coef_rec i (svCoefOut cfg ext i pv cr).coef_row

/-- The residual matrix `latent_innov = y - x * coef_mat` of line 299,
where `coef_mat` is the line-298 default-stride map over
`coef_record.row(i).data()`: a read of `num_coef` consecutive storage
cells of the column-major record starting at entry `(i, 0)`, not the
reshape of the just-written row `i`. -/
def svLatentInnov (cfg : SvCfg) (ext : SvExt) (i : ℕ) (pv : SvPrev) (cr : SvCarry) :
    Mat :=
  cfg.y.sub (cfg.x.mul
    (rowDataMap (svCoefRecAfter cfg ext i pv cr) i cfg.dimDesign cfg.dim))

/-- The orthogonalised log-squared residuals `log((Z0 Lᵀ)² + 1e-4)` fed to
the volatility update (lines 300-301). -/
def svOrtho (cfg : SvCfg) (ext : SvExt) (i : ℕ) (pv : SvPrev) (cr : SvCarry) : Mat :=
  let ortho0 := (svLatentInnov cfg ext i pv cr).mul
    (build_inv_lower cfg.dim pv.a_prev).transpose
  Mat.mk' ortho0.rows ortho0.cols (fun r c =>
    ext.logQ (ortho0.entry r c ^ 2 + 1 / 10000))

/-- Step 2: the new volatility block, one `varsv_ht` call per equation
(lines 302-309). -/
def svHBlock (cfg : SvCfg) (ext : SvExt) (i : ℕ) (pv : SvPrev) (cr : SvCarry) : Mat :=
  Mat.mk' cfg.numDesign cfg.dim (fun r t =>
    (ext.ht_draw i t (pv.h_prev.colVec t) (pv.h0_prev.entry t) (pv.sig_prev.entry t)
      ((svOrtho cfg ext i pv cr).colVec t) cfg.nthreads).entry r)

/-- Step 3 applied to the sweep's inputs. -/
def svContemOut (cfg : SvCfg) (ext : SvExt) (i : ℕ) (pv : SvPrev) (cr : SvCarry) :
    ContemStepOut :=
  svContemStep cfg ext i pv cr (svLatentInnov cfg ext i pv cr) (svInnovPrec cfg ext pv)

/-- Step 4: the innovation-variance row, from the just-drawn path block
(lines 361-367). -/
def svSigRow (cfg : SvCfg) (ext : SvExt) (i : ℕ) (pv : SvPrev) (cr : SvCarry) : Vec :=
  varsv_sigh ext i (priorSigShp cfg) (priorSigScl cfg) pv.h0_prev
    (svHBlock cfg ext i pv cr)

/-- Step 5: the initial-state row, from the first value of the just-drawn
path and the just-drawn innovation variance (lines 368-375). -/
def svH0Row (cfg : SvCfg) (ext : SvExt) (i : ℕ) (pv : SvPrev) (cr : SvCarry) : Vec :=
  varsv_h0 ext i (priorInitMean cfg) (priorInitPrec cfg) pv.h0_prev
    ((svHBlock cfg ext i pv cr).row 0) (svSigRow cfg ext i pv cr)

/-- One full Gibbs sweep over the read slices and carried variables, in the
fixed source order: coefficients, volatility path, correlation loadings,
volatility innovation variance, initial volatility state. -/
def svDraws (cfg : SvCfg) (ext : SvExt) (i : ℕ) (pv : SvPrev) (cr : SvCarry) : SvDraws :=
  let co := svCoefOut cfg ext i pv cr
  let cs := svContemOut cfg ext i pv cr
  let carry : SvCarry :=
    ⟨co.init_local, cs.init_contem_local, cs.init_contem_global,
     cs.chol_slab_weight, co.prior_alpha_prec, cs.prior_chol_prec,
     co.slab_weight_mat, co.global_shrinkage_mat⟩
  ⟨co.coef_row, svHBlock cfg ext i pv cr, cs.contem_row,
   svSigRow cfg ext i pv cr, svH0Row cfg ext i pv cr,
   co.coef_dummy_row, co.coef_weight_row, cs.contem_dummy_row,
   cs.contem_weight_row, co.local_row, co.global_row, co.shrink_row_im1, carry⟩

/-- Commit one sweep's draws into the state. -/
def svWrite (nd i : ℕ) (d : SvDraws) (st : SvState) : SvState :=
  { coef_record := optSetRow st.coef_record i d.coef_row,
    contem_coef_record := st.contem_coef_record.setRow i d.contem_row,
    lvol_sig_record := st.lvol_sig_record.setRow i d.sig_row,
    lvol_init_record := st.lvol_init_record.setRow i d.h0_row,
    lvol_record := st.lvol_record.setBlock (nd * i) 0 d.h_block,
    coef_dummy_record := optSetRow st.coef_dummy_record i d.coef_dummy_row,
    coef_weight_record := optSetRow st.coef_weight_record i d.coef_weight_row,
    contem_dummy_record := optSetRow st.contem_dummy_record i d.contem_dummy_row,
    contem_weight_record := optSetRow st.contem_weight_record i d.contem_weight_row,
    local_record := optSetRow st.local_record i d.local_row,
    global_record := optSetRow st.global_record i d.global_row,
    shrink_record := optSetRow st.shrink_record (i - 1) d.shrink_row_im1,
    init_local := d.carry.init_local,
    init_contem_local := d.carry.init_contem_local,
    init_contem_global := d.carry.init_contem_global,
    chol_slab_weight := d.carry.chol_slab_weight,
    prior_alpha_prec := d.carry.prior_alpha_prec,
    prior_chol_prec := d.carry.prior_chol_prec,
    slab_weight_mat := d.carry.slab_weight_mat,
    global_shrinkage_mat := d.carry.global_shrinkage_mat }

/-- Iteration `i` of the Gibbs loop. -/
def svStep (cfg : SvCfg) (ext : SvExt) (i : ℕ) (st : SvState) : SvState :=
  svWrite cfg.numDesign i (svDraws cfg ext i (svPrevOf cfg i st) (svCarryOf st)) st

/-- The Gibbs loop `for (i = 1; i < num_iter + 1; i++)` with the
cooperative cancellation check at the top of each iteration.  Returns the
state reached and whether the run was cancelled. -/
def svIter (cfg : SvCfg) (ext : SvExt) (abortAt : ℕ → Bool) :
    ℕ → ℕ → SvState → SvState × Bool
  | 0, _, st => (st, false)
  | fuel + 1, i, st =>
    if abortAt i then (st, true)
    else svIter cfg ext abortAt fuel (i + 1) (svStep cfg ext i st)

/-- The record initialisation of the preamble (lines 109-164).  The
matrices declared without `Zero` in the source (`coef_dummy_record` and
the other SSVS/horseshoe records, `slab_weight_mat`) hold uninitialised
Eigen memory there; they are modelled as zero, which no claim depends on. -/
def svInit (cfg : SvCfg) (ext : SvExt) : SvState :=
  let dim := cfg.dim
  let nd := cfg.numDesign
  let coef_ols := ext.lltSolve (cfg.x.transpose.mul cfg.x) (cfg.x.transpose.mul cfg.y)
  let resid := cfg.y.sub (cfg.x.mul coef_ols)
  let lvol_init0 := Vec.mk' dim (fun j =>
    ext.logQ ((∑ t in Finset.range nd, resid.entry t j ^ 2) / (nd : ℚ)))
  { coef_record :=
      (Mat.zero (cfg.num_iter + 1) cfg.numCoef).setRow 0 (vectorize_eigen coef_ols),
    contem_coef_record := Mat.zero (cfg.num_iter + 1) cfg.numLowerchol,
    lvol_sig_record :=
      (Mat.zero (cfg.num_iter + 1) dim).setRow 0 (Vec.mk' dim (fun _ => 1 / 10)),
    lvol_init_record := (Mat.zero (cfg.num_iter + 1) dim).setRow 0 lvol_init0,
    lvol_record := Mat.mk' (nd * (cfg.num_iter + 1)) dim (fun r c =>
      if r < nd then lvol_init0.entry c else 0),
    coef_dummy_record :=
      (Mat.zero (cfg.num_iter + 1) cfg.numAlpha).setRow 0
        (Vec.mk' cfg.numAlpha (fun _ => 1)),
    coef_weight_record :=
      (Mat.zero (cfg.num_iter + 1) cfg.numGrp).setRow 0 cfg.coef_slab_weight,
    contem_dummy_record :=
      (Mat.zero (cfg.num_iter + 1) cfg.numLowerchol).setRow 0
        (Vec.mk' cfg.numLowerchol (fun _ => 1)),
    contem_weight_record :=
      (Mat.zero (cfg.num_iter + 1) cfg.numLowerchol).setRow 0 cfg.chol_slab_weight,
    local_record := (Mat.zero (cfg.num_iter + 1) cfg.numCoef).setRow 0 cfg.init_local,
    global_record := (Mat.zero (cfg.num_iter + 1) cfg.numGrp).setRow 0 cfg.init_global,
    shrink_record := Mat.zero (cfg.num_iter + 1) cfg.numCoef,
    init_local := cfg.init_local,
    init_contem_local := cfg.init_contem_local,
    init_contem_global := cfg.init_contem_global,
    chol_slab_weight := cfg.chol_slab_weight,
    prior_alpha_prec :=
      if cfg.prior_type = 1 then kronecker_eigen cfg.prec_diag cfg.prior_coef_prec
      else Mat.zero cfg.numCoef cfg.numCoef,
    prior_chol_prec := Mat.identity cfg.numLowerchol,
    slab_weight_mat := Mat.zero (cfg.numAlpha / dim) dim,
    global_shrinkage_mat := Mat.zero cfg.dimDesign dim }

/-- The labelled return bundle.  On cancellation the preallocated records
are returned whole; on normal completion every record except the
volatility path is sliced to its last `num_iter - num_burn` rows, and the
horseshoe regime first writes the final shrinkage-factor row. -/
def svBundle (cfg : SvCfg) (ext : SvExt) (st : SvState) (aborted : Bool) :
    List (String × Mat) :=
  if aborted then
    if cfg.prior_type = 2 then
      [("alpha_record", st.coef_record), ("h_record", st.lvol_record),
       ("a_record", st.contem_coef_record), ("h0_record", st.lvol_init_record),
       ("sigh_record", st.lvol_sig_record), ("gamma_record", st.coef_dummy_record)]
    else if cfg.prior_type = 3 then
      [("alpha_record", st.coef_record), ("h_record", st.lvol_record),
       ("a_record", st.contem_coef_record), ("h0_record", st.lvol_init_record),
       ("sigh_record", st.lvol_sig_record), ("lambda_record", st.local_record),
       ("tau_record", st.global_record), ("kappa_record", st.shrink_record)]
    else
      [("alpha_record", st.coef_record), ("h_record", st.lvol_record),
       ("a_record", st.contem_coef_record), ("h0_record", st.lvol_init_record),
       ("sigh_record", st.lvol_sig_record)]
  else
    let keep := cfg.num_iter - cfg.num_burn
    if cfg.prior_type = 2 then
      [("alpha_record", st.coef_record.bottomRows keep), ("h_record", st.lvol_record),
       ("a_record", st.contem_coef_record.bottomRows keep),
       ("h0_record", st.lvol_init_record.bottomRows keep),
       ("sigh_record", st.lvol_sig_record.bottomRows keep),
       ("gamma_record", st.coef_dummy_record.bottomRows keep)]
    else if cfg.prior_type = 3 then
      let shrink_final := st.shrink_record.setRow cfg.num_iter
        ((ext.matInv ((Mat.identity cfg.numCoef).add st.prior_alpha_prec)).diag)
      [("alpha_record", st.coef_record.bottomRows keep), ("h_record", st.lvol_record),
       ("a_record", st.contem_coef_record.bottomRows keep),
       ("h0_record", st.lvol_init_record.bottomRows keep),
       ("sigh_record", st.lvol_sig_record.bottomRows keep),
       ("lambda_record", st.local_record.bottomRows keep),
       ("tau_record", st.global_record.bottomRows keep),
       ("kappa_record", shrink_final.bottomRows keep)]
    else
      [("alpha_record", st.coef_record.bottomRows keep), ("h_record", st.lvol_record),
       ("a_record", st.contem_coef_record.bottomRows keep),
       ("h0_record", st.lvol_init_record.bottomRows keep),
       ("sigh_record", st.lvol_sig_record.bottomRows keep)]

/-- `estimate_var_sv` from `estimate-sv.cpp`: initialise, run the loop with
the cooperative cancellation predicate, and build the labelled bundle. -/
def estimate_var_sv (cfg : SvCfg) (ext : SvExt) (abortAt : ℕ → Bool) :
    List (String × Mat) :=
  let r := svIter cfg ext abortAt cfg.num_iter 1 (svInit cfg ext)
  svBundle cfg ext r.1 r.2

/-- The nominal shapes of the history matrices, as allocated by the
preamble; they are an invariant of the loop. -/
structure SvDimsOK (cfg : SvCfg) (st : SvState) : Prop where
  coef_rows : st.coef_record.rows = cfg.num_iter + 1
  coef_cols : st.coef_record.cols = cfg.numCoef
  contem_rows : st.contem_coef_record.rows = cfg.num_iter + 1
  contem_cols : st.contem_coef_record.cols = cfg.numLowerchol
  sig_rows : st.lvol_sig_record.rows = cfg.num_iter + 1
  sig_cols : st.lvol_sig_record.cols = cfg.dim
  h0_rows : st.lvol_init_record.rows = cfg.num_iter + 1
  h0_cols : st.lvol_init_record.cols = cfg.dim
  h_rows : st.lvol_record.rows = cfg.numDesign * (cfg.num_iter + 1)
  h_cols : st.lvol_record.cols = cfg.dim
  cdummy_rows : st.coef_dummy_record.rows = cfg.num_iter + 1
  cdummy_cols : st.coef_dummy_record.cols = cfg.numAlpha
  cweight_rows : st.coef_weight_record.rows = cfg.num_iter + 1
  cweight_cols : st.coef_weight_record.cols = cfg.numGrp
  kdummy_rows : st.contem_dummy_record.rows = cfg.num_iter + 1
  kdummy_cols : st.contem_dummy_record.cols = cfg.numLowerchol
  kweight_rows : st.contem_weight_record.rows = cfg.num_iter + 1
  kweight_cols : st.contem_weight_record.cols = cfg.numLowerchol
  local_rows : st.local_record.rows = cfg.num_iter + 1
  local_cols : st.local_record.cols = cfg.numCoef
  global_rows : st.global_record.rows = cfg.num_iter + 1
  global_cols : st.global_record.cols = cfg.numGrp
  shrink_rows : st.shrink_record.rows = cfg.num_iter + 1
  shrink_cols : st.shrink_record.cols = cfg.numCoef

/-! ### Concrete instances used by witnesses and counterexamples -/

/-- Trivial instantiation of the external primitives of
`generate-distn.cpp` (identity kernels, zero draws). -/
def primTriv : Prim :=
  ⟨fun _ => 0, fun _ _ => 0, fun q => q, fun m => m, fun m => m, fun m => m, fun m => m⟩

/-- A concrete `3 × 3` scale matrix. -/
def mat33 : Mat := Mat.mk' 3 3 (fun i j => if i = j then 1 else 0)

/-- A concrete `3 × 2` mean matrix. -/
def mean32 : Mat := Mat.mk' 3 2 (fun _ _ => 0)

/-- A concrete `1 × 1` matrix. -/
def mat11 : Mat := Mat.mk' 1 1 (fun _ _ => 1)

/-- A concrete square but non-symmetric `sig` (its (0,1) and (1,0) entries
differ), hence not a valid covariance matrix. -/
def sigNonSym : Mat :=
  Mat.mk' 2 2 (fun i j => if i = 0 ∧ j = 1 then 5 else if i = j then 1 else 0)

/-- A concrete mean vector of length 2. -/
def mu2 : Vec := Vec.mk' 2 (fun _ => 1)

/-- Trivial instantiation of the external helpers of `estimate-sv.cpp`. -/
def svExtTriv : SvExt where
  reg_draw := fun _ _ _ _ _ _ _ => Vec.mk' 0 (fun _ => 0)
  ht_draw := fun _ _ _ _ _ _ _ => Vec.mk' 0 (fun _ => 0)
  ig_draw := fun _ _ _ _ => 0
  gauss_draw := fun _ _ _ _ => 0
  ssvs_dummy_draw := fun _ _ _ _ _ _ => Vec.mk' 0 (fun _ => 0)
  ssvs_mn_weight_draw := fun _ _ _ _ _ _ => Vec.mk' 0 (fun _ => 0)
  ssvs_weight_draw := fun _ _ _ _ => Vec.mk' 0 (fun _ => 0)
  hs_latent_draw := fun _ _ _ => Vec.mk' 0 (fun _ => 0)
  hs_local_draw := fun _ _ _ _ _ _ => Vec.mk' 0 (fun _ => 0)
  hs_mn_global_draw := fun _ _ _ _ _ _ _ => Vec.mk' 0 (fun _ => 0)
  hs_global_draw := fun _ _ _ _ _ => 0
  lltSolve := fun _ b => b
  matInv := fun m => m
  logQ := fun q => q
  expQ := fun q => q

/-- External helpers whose regression draw reads the top-left entry of the
prior precision it is given: a legitimate realisation, since for a fixed
random stream the realised regression draw does depend on the prior
precision. -/
def svExtPrec : SvExt where
  reg_draw := fun _ _ _ _ pmean pprec _ => Vec.mk' pmean.size (fun _ => pprec.entry 0 0)
  ht_draw := fun _ _ _ _ _ _ _ => Vec.mk' 0 (fun _ => 0)
  ig_draw := fun _ _ _ _ => 0
  gauss_draw := fun _ _ _ _ => 0
  ssvs_dummy_draw := fun _ _ _ _ _ _ => Vec.mk' 0 (fun _ => 0)
  ssvs_mn_weight_draw := fun _ _ _ _ _ _ => Vec.mk' 0 (fun _ => 0)
  ssvs_weight_draw := fun _ _ _ _ => Vec.mk' 0 (fun _ => 0)
  hs_latent_draw := fun _ _ _ => Vec.mk' 0 (fun _ => 0)
  hs_local_draw := fun _ _ _ glob _ _ => Vec.mk' glob.size (fun _ => 1)
  hs_mn_global_draw := fun _ _ _ _ _ _ _ => Vec.mk' 0 (fun _ => 0)
  hs_global_draw := fun _ _ _ _ _ => 0
  lltSolve := fun _ b => b
  matInv := fun m => m
  logQ := fun q => q
  expQ := fun q => q

/-- External helpers whose regression draw reads the top-left entry of the
prior precision it is given and whose volatility-path draw echoes the
observation vector it is fed: both are legitimate realisations of the
abstract samplers, and the echo exposes exactly which observations the
path update receives. -/
def svExtEcho : SvExt where
  reg_draw := fun _ _ _ _ pmean pprec _ => Vec.mk' pmean.size (fun _ => pprec.entry 0 0)
  ht_draw := fun _ _ _ _ _ obs _ => obs
  ig_draw := fun _ _ _ _ => 0
  gauss_draw := fun _ _ _ _ => 0
  ssvs_dummy_draw := fun _ _ _ _ _ _ => Vec.mk' 0 (fun _ => 0)
  ssvs_mn_weight_draw := fun _ _ _ _ _ _ => Vec.mk' 0 (fun _ => 0)
  ssvs_weight_draw := fun _ _ _ _ => Vec.mk' 0 (fun _ => 0)
  hs_latent_draw := fun _ _ _ => Vec.mk' 0 (fun _ => 0)
  hs_local_draw := fun _ _ _ glob _ _ => Vec.mk' glob.size (fun _ => 1)
  hs_mn_global_draw := fun _ _ _ _ _ _ _ => Vec.mk' 0 (fun _ => 0)
  hs_global_draw := fun _ _ _ _ _ => 0
  lltSolve := fun _ b => b
  matInv := fun m => m
  logQ := fun q => q
  expQ := fun q => q

/-- A small concrete entry configuration: one design row, one design
column, two response columns (`dim = 2`, `num_lowerchol = 1`,
`num_coef = 2`), with selectable regime tag, iteration counts and initial
contemporaneous global shrinkage `g`. -/
def mkTestCfg (pt : ℤ) (ni nb : ℕ) (g : ℚ) : SvCfg where
  num_iter := ni
  num_burn := nb
  x := Mat.mk' 1 1 (fun _ _ => 1)
  y := Mat.mk' 1 2 (fun _ _ => 0)
  prior_coef_mean := Mat.mk' 1 2 (fun _ _ => 0)
  prior_coef_prec := Mat.mk' 1 1 (fun _ _ => 1)
  prec_diag := Mat.mk' 2 2 (fun i j => if i = j then 1 else 0)
  prior_type := pt
  init_local := Vec.mk' 2 (fun _ => 1)
  init_global := Vec.mk' 1 (fun _ => 1)
  init_contem_local := Vec.mk' 1 (fun _ => 1)
  init_contem_global := Vec.mk' 1 (fun _ => g)
  grp_id := ⟨1, fun _ => 1⟩
  grp_mat := Mat.mk' 1 2 (fun _ _ => 1)
  coef_spike := Vec.mk' 2 (fun _ => 1 / 10)
  coef_slab := Vec.mk' 2 (fun _ => 1)
  coef_slab_weight := Vec.mk' 1 (fun _ => 1 / 2)
  chol_spike := Vec.mk' 1 (fun _ => 1 / 10)
  chol_slab := Vec.mk' 1 (fun _ => 1)
  chol_slab_weight := Vec.mk' 1 (fun _ => 1 / 2)
  coef_s1 := 1
  coef_s2 := 1
  chol_s1 := 1
  chol_s2 := 1
  mean_non := Vec.mk' 2 (fun _ => 0)
  sd_non := 1
  include_mean := false
  nthreads := 1

/-! ## Basic shape lemmas -/

@[simp] theorem Mat.mk'_rows (r c : ℕ) (f : ℕ → ℕ → ℚ) : (Mat.mk' r c f).rows = r := rfl

@[simp] theorem Mat.mk'_cols (r c : ℕ) (f : ℕ → ℕ → ℚ) : (Mat.mk' r c f).cols = c := rfl

@[simp] theorem Vec.mk'_size (n : ℕ) (f : ℕ → ℚ) : (Vec.mk' n f).size = n := rfl

@[simp] theorem Mat.mul_rows (a b : Mat) : (a.mul b).rows = a.rows := rfl

@[simp] theorem Mat.mul_cols (a b : Mat) : (a.mul b).cols = b.cols := rfl

@[simp] theorem Mat.transpose_rows (a : Mat) : a.transpose.rows = a.cols := rfl

@[simp] theorem Mat.transpose_cols (a : Mat) : a.transpose.cols = a.rows := rfl

@[simp] theorem Mat.add_rows (a b : Mat) : (a.add b).rows = a.rows := rfl

@[simp] theorem Mat.add_cols (a b : Mat) : (a.add b).cols = a.cols := rfl

@[simp] theorem Mat.sub_rows (a b : Mat) : (a.sub b).rows = a.rows := rfl

@[simp] theorem Mat.sub_cols (a b : Mat) : (a.sub b).cols = a.cols := rfl

@[simp] theorem Mat.addRowVec_rows (a : Mat) (v : Vec) : (a.addRowVec v).rows = a.rows := rfl

@[simp] theorem Mat.addRowVec_cols (a : Mat) (v : Vec) : (a.addRowVec v).cols = a.cols := rfl

@[simp] theorem Mat.setRow_rows (a : Mat) (i : ℕ) (v : Vec) : (a.setRow i v).rows = a.rows := rfl

@[simp] theorem Mat.setRow_cols (a : Mat) (i : ℕ) (v : Vec) : (a.setRow i v).cols = a.cols := rfl

@[simp] theorem Mat.setBlock_rows (a : Mat) (r0 c0 : ℕ) (b : Mat) :
    (a.setBlock r0 c0 b).rows = a.rows := rfl

@[simp] theorem Mat.setBlock_cols (a : Mat) (r0 c0 : ℕ) (b : Mat) :
    (a.setBlock r0 c0 b).cols = a.cols := rfl

@[simp] theorem Mat.setDiag_rows (a : Mat) (v : Vec) : (a.setDiag v).rows = a.rows := rfl

@[simp] theorem Mat.setDiag_cols (a : Mat) (v : Vec) : (a.setDiag v).cols = a.cols := rfl

@[simp] theorem Mat.bottomRows_rows (a : Mat) (n : ℕ) : (a.bottomRows n).rows = n := rfl

@[simp] theorem Mat.bottomRows_cols (a : Mat) (n : ℕ) : (a.bottomRows n).cols = a.cols := rfl

@[simp] theorem Mat.block_rows (a : Mat) (r0 c0 nr nc : ℕ) :
    (a.block r0 c0 nr nc).rows = nr := rfl

@[simp] theorem Mat.block_cols (a : Mat) (r0 c0 nr nc : ℕ) :
    (a.block r0 c0 nr nc).cols = nc := rfl

@[simp] theorem Mat.zero_rows (r c : ℕ) : (Mat.zero r c).rows = r := rfl

@[simp] theorem Mat.zero_cols (r c : ℕ) : (Mat.zero r c).cols = c := rfl

@[simp] theorem Mat.row_size (a : Mat) (i : ℕ) : (a.row i).size = a.cols := rfl

@[simp] theorem optSetRow_rows (m : Mat) (i : ℕ) (o : Option Vec) :
    (optSetRow m i o).rows = m.rows := by cases o <;> rfl

@[simp] theorem optSetRow_cols (m : Mat) (i : ℕ) (o : Option Vec) :
    (optSetRow m i o).cols = m.cols := by cases o <;> rfl

/-! ## Lemmas about the companion random-matrix services -/

/-- When the shape is admissible and the scale square, `sim_iw_tri`
succeeds and consumes exactly the Bartlett draws. -/
theorem sim_iw_tri_ok (p : Prim) (scale : Mat) (shape : ℚ) (pos : ℕ)
    (h1 : ¬ shape ≤ (scale.cols : ℚ) - 1) (h2 : scale.rows = scale.cols) :
    sim_iw_tri p scale shape pos =
      (Except.ok ((p.cholLower scale).mul
        ((p.matInv (bartlett p scale.cols shape pos)).transpose)),
       pos + bartlettDraws scale.cols) := by
  unfold sim_iw_tri
  rw [if_neg h1, if_neg (by simp [h2]), if_neg (by simp [h2])]

/-- Every error produced by `sim_matgaussian` is one of its two
dimension-mismatch messages, and an error leaves the draw counter
untouched. -/
theorem sim_matgaussian_error_cases (p : Prim) (mean u v : Mat) (pos : ℕ) (e : String)
    (pos2 : ℕ) (h : sim_matgaussian p mean u v pos = (Except.error e, pos2)) :
    (e = "Invalid mat_scale_u dimension." ∨ e = "Invalid mat_scale_v dimension.") ∧
      pos2 = pos := by
  unfold sim_matgaussian at h
  by_cases c1 : u.rows ≠ u.cols
  · rw [if_pos c1] at h
    simp only [Prod.mk.injEq, Except.error.injEq] at h
    exact ⟨Or.inl h.1.symm, h.2.symm⟩
  · rw [if_neg c1] at h
    by_cases c2 : mean.rows ≠ u.rows
    · rw [if_pos c2] at h
      simp only [Prod.mk.injEq, Except.error.injEq] at h
      exact ⟨Or.inl h.1.symm, h.2.symm⟩
    · rw [if_neg c2] at h
      by_cases c3 : v.rows ≠ v.cols
      · rw [if_pos c3] at h
        simp only [Prod.mk.injEq, Except.error.injEq] at h
        exact ⟨Or.inr h.1.symm, h.2.symm⟩
      · rw [if_neg c3] at h
        by_cases c4 : mean.cols ≠ v.rows
        · rw [if_pos c4] at h
          simp only [Prod.mk.injEq, Except.error.injEq] at h
          exact ⟨Or.inr h.1.symm, h.2.symm⟩
        · rw [if_neg c4] at h
          simp only [Prod.mk.injEq] at h
          exact absurd h.1 (by simp)

/-- The `sim_mniw` loop never reports the invalid-shape message when the
shape is admissible and the scale square. -/
theorem mniwLoop_ne_shape_error (p : Prim) (mean u scale : Mat) (shape : ℚ)
    (ncol dimiw : ℕ) (h1 : ¬ shape ≤ (scale.cols : ℚ) - 1)
    (h2 : scale.rows = scale.cols) :
    ∀ (n i : ℕ) (rm ri : Mat) (pos : ℕ),
      (mniwLoop p mean u scale shape ncol dimiw n i rm ri pos).1 ≠
        Except.error "Wrong shape. shape > dim - 1 must be satisfied." := by
  intro n
  induction n with
  | zero => intro i rm ri pos; simp [mniwLoop]
  | succ n ih =>
    intro i rm ri pos
    unfold mniwLoop
    rw [sim_iw_tri_ok p scale shape pos h1 h2]
    dsimp only
    split
    next e pos2 hmg =>
      rcases (sim_matgaussian_error_cases p mean u _ _ e pos2 hmg).1 with he | he <;>
        simp [he]
    next ymat pos2 hmg => exact ih _ _ _ _

/-- C5, amended: `sim_iw_tri` and `sim_iw` fail with the
invalid-hyperparameter error exactly when `shape ≤ dim - 1`, and on that
error the draw counter is unchanged (no random draw was made); `sim_mniw`
behaves the same way provided at least one simulation is requested and the
inverse-Wishart scale is square — with `num_sim = 0` its loop body never
runs, so the shape is never validated (see the counterexample). -/
theorem c5_invalid_shape_amended (p : Prim) (scale : Mat) (shape : ℚ) (pos : ℕ) :
    ((sim_iw_tri p scale shape pos).1 =
        Except.error "Wrong shape. shape > dim - 1 must be satisfied." ↔
      shape ≤ (scale.cols : ℚ) - 1) ∧
    (shape ≤ (scale.cols : ℚ) - 1 →
      sim_iw_tri p scale shape pos =
        (Except.error "Wrong shape. shape > dim - 1 must be satisfied.", pos)) ∧
    ((sim_iw p scale shape pos).1 =
        Except.error "Wrong shape. shape > dim - 1 must be satisfied." ↔
      shape ≤ (scale.cols : ℚ) - 1) ∧
    (shape ≤ (scale.cols : ℚ) - 1 →
      sim_iw p scale shape pos =
        (Except.error "Wrong shape. shape > dim - 1 must be satisfied.", pos)) ∧
    (∀ (num_sim : ℕ) (mean u : Mat), 1 ≤ num_sim → scale.rows = scale.cols →
      ((sim_mniw p num_sim mean u scale shape pos).1 =
          Except.error "Wrong shape. shape > dim - 1 must be satisfied." ↔
        shape ≤ (scale.cols : ℚ) - 1)) ∧
    (∀ (num_sim : ℕ) (mean u : Mat), 1 ≤ num_sim → scale.rows = scale.cols →
      shape ≤ (scale.cols : ℚ) - 1 →
      sim_mniw p num_sim mean u scale shape pos =
        (Except.error "Wrong shape. shape > dim - 1 must be satisfied.", pos)) := by
  have htri : ∀ hs : shape ≤ (scale.cols : ℚ) - 1,
      sim_iw_tri p scale shape pos =
        (Except.error "Wrong shape. shape > dim - 1 must be satisfied.", pos) := by
    intro hs; unfold sim_iw_tri; rw [if_pos hs]
  have htri_iff : (sim_iw_tri p scale shape pos).1 =
      Except.error "Wrong shape. shape > dim - 1 must be satisfied." ↔
      shape ≤ (scale.cols : ℚ) - 1 := by
    constructor
    · intro h
      by_contra hs
      unfold sim_iw_tri at h
      rw [if_neg hs] at h
      split_ifs at h <;> simp_all
    · intro hs; rw [htri hs]
  have hmniw : ∀ (num_sim : ℕ) (mean u : Mat), 1 ≤ num_sim → scale.rows = scale.cols →
      shape ≤ (scale.cols : ℚ) - 1 →
      sim_mniw p num_sim mean u scale shape pos =
        (Except.error "Wrong shape. shape > dim - 1 must be satisfied.", pos) := by
    intro num_sim mean u hn hsq hs
    obtain ⟨n, rfl⟩ : ∃ n, num_sim = n + 1 :=
      ⟨num_sim - 1, by omega⟩
    unfold sim_mniw
    rw [if_neg (by simp [hsq])]
    unfold mniwLoop
    rw [htri hs]
  refine ⟨htri_iff, htri, ?_, ?_, ?_, hmniw⟩
  · unfold sim_iw
    rcases htr : sim_iw_tri p scale shape pos with ⟨res, pos1⟩
    rw [htr] at htri_iff
    cases res with
    | error e => simpa using htri_iff
    | ok m =>
      simp only [Prod.fst] at htri_iff ⊢
      simp at htri_iff
      simp [htri_iff]
  · intro hs
    unfold sim_iw
    rw [htri hs]
  · intro num_sim mean u hn hsq
    constructor
    · intro h
      by_contra hs
      exact mniwLoop_ne_shape_error p mean u scale shape mean.cols scale.cols hs hsq
        num_sim 0 _ _ pos (by
          unfold sim_mniw at h
          rw [if_neg (by simp [hsq])] at h
          exact h)
    · intro hs; rw [hmniw num_sim mean u hn hsq hs]

/-- C5 witness: the amended theorem applied at a concrete admissible
input: `sim_mniw` with one simulation, `1 × 1` scale and shape `0 ≤ 0`
fails with the invalid-shape error at an unchanged draw counter. -/
theorem c5_witness :
    sim_mniw primTriv 1 mat11 mat11 mat11 0 0 =
      (Except.error "Wrong shape. shape > dim - 1 must be satisfied.", 0) :=
  (c5_invalid_shape_amended primTriv mat11 0 0).2.2.2.2.2 1 mat11 mat11
    (by decide) rfl (by norm_num [mat11, Mat.mk'])

/-- C5 counterexample: `sim_mniw` with `num_sim = 0` and an inadmissible
shape (`0 ≤ dim - 1 = 0`) succeeds instead of failing, so the claimed
equivalence is false for `sim_mniw` as stated. -/
theorem c5_counterexample :
    ((0 : ℚ) ≤ (mat11.cols : ℚ) - 1) ∧
    exOk (sim_mniw primTriv 0 mat11 mat11 mat11 0 0).1 = true := by
  exact ⟨by norm_num [mat11, Mat.mk'], rfl⟩

/-- The trivial primitive instantiation satisfies the Eigen shape
contract. -/
theorem primTriv_shape : PrimShapeOK primTriv :=
  ⟨fun _ => ⟨rfl, rfl⟩, fun _ => ⟨rfl, rfl⟩, fun _ => ⟨rfl, rfl⟩, fun _ => ⟨rfl, rfl⟩⟩

/-- A mean whose column count disagrees with the (square) second scale
makes `sim_matgaussian` fail with the second-scale message, at an
unchanged counter. -/
theorem sim_matgaussian_colmismatch (p : Prim) (mean u v : Mat) (pos : ℕ)
    (hu : u.rows = u.cols) (hmr : mean.rows = u.rows) (hvsq : v.rows = v.cols)
    (hmc : mean.cols ≠ v.rows) :
    sim_matgaussian p mean u v pos =
      (Except.error "Invalid mat_scale_v dimension.", pos) := by
  unfold sim_matgaussian
  rw [if_neg (by simp [hu]), if_neg (by simp [hmr]), if_neg (by simp [hvsq]),
    if_pos hmc]

/-- C6, amended: `sim_mgaussian`, `sim_mgaussian_chol` and
`sim_matgaussian` each validate squareness and dimension compatibility of
their matrix arguments before drawing — every dimension error leaves the
draw counter unchanged, and compatible inputs succeed.  `sim_mniw` eagerly
validates only the squareness of its inverse-Wishart scale: a
mean/second-scale mismatch (such as a `3 × 2` mean with `3 × 3` scales) is
detected inside `sim_matgaussian` on the first loop pass, after the
Bartlett draws of the inverse-Wishart factor, and the call then fails with
the dimension-mismatch error and produces no partial output (provided
`num_sim ≥ 1`; with `num_sim = 0` no such validation happens at all). -/
theorem c6_dim_validation_amended (p : Prim) (pos : ℕ) :
    (∀ (n : ℕ) (mu : Vec) (sig : Mat), sig.rows ≠ sig.cols →
      sim_mgaussian p n mu sig pos = (Except.error "Invalid sig dimension.", pos)) ∧
    (∀ (n : ℕ) (mu : Vec) (sig : Mat), sig.rows = sig.cols → sig.cols ≠ mu.size →
      sim_mgaussian p n mu sig pos = (Except.error "Invalid mu size.", pos)) ∧
    (∀ (n : ℕ) (mu : Vec) (sig : Mat), sig.rows ≠ sig.cols →
      sim_mgaussian_chol p n mu sig pos = (Except.error "Invalid sig dimension.", pos)) ∧
    (∀ (n : ℕ) (mu : Vec) (sig : Mat), sig.rows = sig.cols → sig.cols ≠ mu.size →
      sim_mgaussian_chol p n mu sig pos = (Except.error "Invalid mu size.", pos)) ∧
    (∀ (mean u v : Mat) (e : String) (pos2 : ℕ),
      sim_matgaussian p mean u v pos = (Except.error e, pos2) → pos2 = pos) ∧
    (∀ mean u v : Mat, u.rows = u.cols → mean.rows = u.rows → v.rows = v.cols →
      mean.cols = v.rows → exOk (sim_matgaussian p mean u v pos).1 = true) ∧
    (∀ (num_sim : ℕ) (mean u scale : Mat) (shape : ℚ), PrimShapeOK p →
      1 ≤ num_sim → scale.rows = scale.cols → (scale.cols : ℚ) - 1 < shape →
      u.rows = u.cols → mean.rows = u.rows → mean.cols ≠ scale.cols →
      sim_mniw p num_sim mean u scale shape pos =
        (Except.error "Invalid mat_scale_v dimension.",
         pos + bartlettDraws scale.cols)) := by
  refine ⟨?_, ?_, ?_, ?_, ?_, ?_, ?_⟩
  · intro n mu sig h
    unfold sim_mgaussian
    rw [if_pos h]
  · intro n mu sig h1 h2
    unfold sim_mgaussian
    rw [if_neg (by simp [h1]), if_pos h2]
  · intro n mu sig h
    unfold sim_mgaussian_chol
    rw [if_pos h]
  · intro n mu sig h1 h2
    unfold sim_mgaussian_chol
    rw [if_neg (by simp [h1]), if_pos h2]
  · intro mean u v e pos2 h
    exact (sim_matgaussian_error_cases p mean u v pos e pos2 h).2
  · intro mean u v hu hmr hv hmc
    unfold sim_matgaussian
    rw [if_neg (by simp [hu]), if_neg (by simp [hmr]), if_neg (by simp [hv]),
      if_neg (by simp [hmc])]
    rfl
  · intro num_sim mean u scale shape hp hn hsq hsh hu hmr hmc
    obtain ⟨n, rfl⟩ : ∃ n, num_sim = n + 1 := ⟨num_sim - 1, by omega⟩
    unfold sim_mniw
    rw [if_neg (by simp [hsq])]
    unfold mniwLoop
    rw [sim_iw_tri_ok p scale shape pos (not_le.mpr hsh) hsq]
    dsimp only
    have hcol : mean.cols ≠
        (((p.cholLower scale).mul
            ((p.matInv (bartlett p scale.cols shape pos)).transpose)).mul
          (((p.cholLower scale).mul
            ((p.matInv (bartlett p scale.cols shape pos)).transpose)).transpose)).rows := by
      simpa [(hp.2.1 scale).1, hsq] using hmc
    rw [sim_matgaussian_colmismatch p mean u _ _ hu hmr rfl hcol]

/-- C6 witness: the amended theorem applied at the concrete `3 × 2` mean
with `3 × 3` scales of the claim: the call fails with the
dimension-mismatch error after the six Bartlett draws. -/
theorem c6_witness :
    sim_mniw primTriv 1 mean32 mat33 mat33 5 0 =
      (Except.error "Invalid mat_scale_v dimension.", 0 + bartlettDraws mat33.cols) :=
  (c6_dim_validation_amended primTriv 0).2.2.2.2.2.2 1 mean32 mat33 mat33 5
    primTriv_shape (by decide) rfl (by norm_num [mat33]) rfl rfl (by decide)

/-- C6 counterexample: the `3 × 2` mean with `3 × 3` scales does make
`sim_mniw` fail with the dimension-mismatch error, but only after the six
Bartlett draws of the first loop pass — the draw counter has advanced from
0 to 6 when the mismatch is detected — refuting "validates ... before
drawing". -/
theorem c6_counterexample :
    sim_mniw primTriv 1 mean32 mat33 mat33 5 0 =
      (Except.error "Invalid mat_scale_v dimension.", 6) ∧ (6 : ℕ) ≠ 0 := by
  constructor
  · unfold sim_mniw
    rw [if_neg (by decide)]
    unfold mniwLoop
    rw [sim_iw_tri_ok primTriv mat33 5 0 (by norm_num [mat33]) rfl]
    dsimp only
    rw [sim_matgaussian_colmismatch primTriv mean32 mat33 _ _ rfl rfl rfl (by decide)]
    simp [bartlettDraws, mat33, Finset.sum_range_succ]
  · decide

/-- C10: both multivariate-normal services accept any square `sig` whose
dimension matches `mu` — no symmetry validation exists (the quantification
covers non-symmetric `sig`; the witness instantiates one) — and the result
is a `num_sim × dim` matrix. -/
theorem c10_accepts_nonsym (p : Prim) (hp : PrimShapeOK p) (num_sim : ℕ) (mu : Vec)
    (sig : Mat) (pos : ℕ) (hsq : sig.rows = sig.cols) (hmu : sig.cols = mu.size) :
    (∃ res : Mat, (sim_mgaussian p num_sim mu sig pos).1 = Except.ok res ∧
      res.rows = num_sim ∧ res.cols = sig.cols) ∧
    (∃ res : Mat, (sim_mgaussian_chol p num_sim mu sig pos).1 = Except.ok res ∧
      res.rows = num_sim ∧ res.cols = sig.cols) := by
  constructor
  · unfold sim_mgaussian
    rw [if_neg (by simp [hsq]), if_neg (by simp [hmu])]
    exact ⟨_, rfl, by simp [drawNormMat], by simp [(hp.1 sig).2]⟩
  · unfold sim_mgaussian_chol
    rw [if_neg (by simp [hsq]), if_neg (by simp [hmu])]
    exact ⟨_, rfl, by simp [drawNormMat], by simp [(hp.2.2.1 sig).2]⟩

/-- C10 witness: the theorem applied at the concrete non-symmetric square
`sig` (entries (0,1) and (1,0) differ): no error, `4 × 2` result. -/
theorem c10_witness :
    (sigNonSym.entry 0 1 ≠ sigNonSym.entry 1 0) ∧
    ((∃ res : Mat, (sim_mgaussian primTriv 4 mu2 sigNonSym 0).1 = Except.ok res ∧
        res.rows = 4 ∧ res.cols = sigNonSym.cols) ∧
      (∃ res : Mat, (sim_mgaussian_chol primTriv 4 mu2 sigNonSym 0).1 = Except.ok res ∧
        res.rows = 4 ∧ res.cols = sigNonSym.cols)) :=
  ⟨by decide, c10_accepts_nonsym primTriv primTriv_shape 4 mu2 sigNonSym 0 rfl rfl⟩

/-! ## Lemmas about the Gibbs driver -/

/-- One unfolding of the loop. -/
theorem svIter_succ (cfg : SvCfg) (ext : SvExt) (a : ℕ → Bool) (fuel i : ℕ)
    (st : SvState) :
    svIter cfg ext a (fuel + 1) i st =
      if a i then (st, true) else svIter cfg ext a fuel (i + 1) (svStep cfg ext i st) :=
  rfl

/-- The preamble allocates the nominal shapes. -/
theorem svInit_dims (cfg : SvCfg) (ext : SvExt) : SvDimsOK cfg (svInit cfg ext) := by
  constructor <;> rfl

/-- One sweep preserves the record shapes. -/
theorem svStep_dims (cfg : SvCfg) (ext : SvExt) (i : ℕ) (st : SvState)
    (h : SvDimsOK cfg st) : SvDimsOK cfg (svStep cfg ext i st) := by
  constructor <;>
    simp [svStep, svWrite, h.coef_rows, h.coef_cols, h.contem_rows, h.contem_cols,
      h.sig_rows, h.sig_cols, h.h0_rows, h.h0_cols, h.h_rows, h.h_cols,
      h.cdummy_rows, h.cdummy_cols, h.cweight_rows, h.cweight_cols,
      h.kdummy_rows, h.kdummy_cols, h.kweight_rows, h.kweight_cols,
      h.local_rows, h.local_cols, h.global_rows, h.global_cols,
      h.shrink_rows, h.shrink_cols]

/-- The loop preserves the record shapes, cancelled or not. -/
theorem svIter_dims (cfg : SvCfg) (ext : SvExt) (a : ℕ → Bool) :
    ∀ (fuel i : ℕ) (st : SvState), SvDimsOK cfg st →
      SvDimsOK cfg (svIter cfg ext a fuel i st).1 := by
  intro fuel
  induction fuel with
  | zero => intro i st h; exact h
  | succ n ih =>
    intro i st h
    rw [svIter_succ]
    by_cases ha : a i = true
    · simpa [ha] using h
    · simpa [ha] using ih (i + 1) (svStep cfg ext i st) (svStep_dims cfg ext i st h)

/-- Without a cancellation request the loop reports a normal completion. -/
theorem svIter_noabort (cfg : SvCfg) (ext : SvExt) :
    ∀ (fuel i : ℕ) (st : SvState),
      (svIter cfg ext (fun _ => false) fuel i st).2 = false := by
  intro fuel
  induction fuel with
  | zero => intro i st; rfl
  | succ n ih => intro i st; simpa [svIter_succ] using ih (i + 1) (svStep cfg ext i st)

/-- A run of 100 iterations with the cancellation flag raised at the sixth
boundary reports cancellation. -/
theorem svIter_abort6_snd (cfg : SvCfg) (ext : SvExt) (h100 : cfg.num_iter = 100) :
    (svIter cfg ext (fun i => i == 6) cfg.num_iter 1 (svInit cfg ext)).2 = true := by
  rw [h100]
  rw [show (100 : ℕ) = 99 + 1 from rfl, svIter_succ, if_neg (by decide)]
  rw [show (99 : ℕ) = 98 + 1 from rfl, svIter_succ, if_neg (by decide)]
  rw [show (98 : ℕ) = 97 + 1 from rfl, svIter_succ, if_neg (by decide)]
  rw [show (97 : ℕ) = 96 + 1 from rfl, svIter_succ, if_neg (by decide)]
  rw [show (96 : ℕ) = 95 + 1 from rfl, svIter_succ, if_neg (by decide)]
  rw [show (95 : ℕ) = 94 + 1 from rfl, svIter_succ, if_pos (by decide)]

/-- The field names only depend on the regime, for cancelled and normal
returns alike. -/
theorem svBundle_names (cfg : SvCfg) (ext : SvExt) (st : SvState) (ab : Bool) :
    (svBundle cfg ext st ab).map Prod.fst =
      (if cfg.prior_type = 2 then
        ["alpha_record", "h_record", "a_record", "h0_record", "sigh_record",
         "gamma_record"]
      else if cfg.prior_type = 3 then
        ["alpha_record", "h_record", "a_record", "h0_record", "sigh_record",
         "lambda_record", "tau_record", "kappa_record"]
      else
        ["alpha_record", "h_record", "a_record", "h0_record", "sigh_record"]) := by
  unfold svBundle
  by_cases h2 : cfg.prior_type = 2 <;> by_cases h3 : cfg.prior_type = 3 <;>
    cases ab <;> simp [h2, h3]

/-- C2: on normal completion the untrimmed coefficient record has
`num_iter + 1` rows; every returned trajectory except the volatility path
has `num_iter - num_burn` rows and is the `bottomRows` slice of a
`(num_iter + 1)`-row record; the volatility path is returned whole with
`num_design · (num_iter + 1)` rows; and a `bottomRows` slice of a
`(num_iter + 1)`-row record drops exactly rows `0 .. num_burn`. -/
theorem c2_rows_and_trim (cfg : SvCfg) (ext : SvExt)
    (hb : cfg.num_burn ≤ cfg.num_iter) :
    (svIter cfg ext (fun _ => false) cfg.num_iter 1
        (svInit cfg ext)).1.coef_record.rows = cfg.num_iter + 1 ∧
    (∀ pr ∈ estimate_var_sv cfg ext (fun _ => false), pr.1 ≠ "h_record" →
      pr.2.rows = cfg.num_iter - cfg.num_burn ∧
      ∃ m : Mat, pr.2 = m.bottomRows (cfg.num_iter - cfg.num_burn) ∧
        m.rows = cfg.num_iter + 1) ∧
    (∀ pr ∈ estimate_var_sv cfg ext (fun _ => false), pr.1 = "h_record" →
      pr.2.rows = cfg.numDesign * (cfg.num_iter + 1)) ∧
    (∀ m : Mat, m.rows = cfg.num_iter + 1 →
      ∀ r c, r < cfg.num_iter - cfg.num_burn → c < m.cols →
        (m.bottomRows (cfg.num_iter - cfg.num_burn)).entry r c =
          m.entry (cfg.num_burn + 1 + r) c) := by
  have hd : SvDimsOK cfg (svIter cfg ext (fun _ => false) cfg.num_iter 1
      (svInit cfg ext)).1 :=
    svIter_dims cfg ext _ cfg.num_iter 1 _ (svInit_dims cfg ext)
  refine ⟨hd.coef_rows, ?_, ?_, ?_⟩
  · intro pr hpr hneq
    simp only [estimate_var_sv] at hpr
    rw [svIter_noabort] at hpr
    unfold svBundle at hpr
    by_cases h2 : cfg.prior_type = 2
    · simp [h2] at hpr
      rcases hpr with h | h | h | h | h | h
      · subst h; exact ⟨rfl, _, rfl, hd.coef_rows⟩
      · subst h; exact absurd rfl hneq
      · subst h; exact ⟨rfl, _, rfl, hd.contem_rows⟩
      · subst h; exact ⟨rfl, _, rfl, hd.h0_rows⟩
      · subst h; exact ⟨rfl, _, rfl, hd.sig_rows⟩
      · subst h; exact ⟨rfl, _, rfl, hd.cdummy_rows⟩
    · by_cases h3 : cfg.prior_type = 3
      · simp [h2, h3] at hpr
        rcases hpr with h | h | h | h | h | h | h | h
        · subst h; exact ⟨rfl, _, rfl, hd.coef_rows⟩
        · subst h; exact absurd rfl hneq
        · subst h; exact ⟨rfl, _, rfl, hd.contem_rows⟩
        · subst h; exact ⟨rfl, _, rfl, hd.h0_rows⟩
        · subst h; exact ⟨rfl, _, rfl, hd.sig_rows⟩
        · subst h; exact ⟨rfl, _, rfl, hd.local_rows⟩
        · subst h; exact ⟨rfl, _, rfl, hd.global_rows⟩
        · subst h; exact ⟨rfl, _, rfl, by simp [hd.shrink_rows]⟩
      · simp [h2, h3] at hpr
        rcases hpr with h | h | h | h | h
        · subst h; exact ⟨rfl, _, rfl, hd.coef_rows⟩
        · subst h; exact absurd rfl hneq
        · subst h; exact ⟨rfl, _, rfl, hd.contem_rows⟩
        · subst h; exact ⟨rfl, _, rfl, hd.h0_rows⟩
        · subst h; exact ⟨rfl, _, rfl, hd.sig_rows⟩
  · intro pr hpr heq
    simp only [estimate_var_sv] at hpr
    rw [svIter_noabort] at hpr
    unfold svBundle at hpr
    by_cases h2 : cfg.prior_type = 2
    · simp [h2] at hpr
      rcases hpr with h | h | h | h | h | h
      · subst h; exact absurd heq (by simp)
      · subst h; exact hd.h_rows
      · subst h; exact absurd heq (by simp)
      · subst h; exact absurd heq (by simp)
      · subst h; exact absurd heq (by simp)
      · subst h; exact absurd heq (by simp)
    · by_cases h3 : cfg.prior_type = 3
      · simp [h2, h3] at hpr
        rcases hpr with h | h | h | h | h | h | h | h
        · subst h; exact absurd heq (by simp)
        · subst h; exact hd.h_rows
        · subst h; exact absurd heq (by simp)
        · subst h; exact absurd heq (by simp)
        · subst h; exact absurd heq (by simp)
        · subst h; exact absurd heq (by simp)
        · subst h; exact absurd heq (by simp)
        · subst h; exact absurd heq (by simp)
      · simp [h2, h3] at hpr
        rcases hpr with h | h | h | h | h
        · subst h; exact absurd heq (by simp)
        · subst h; exact hd.h_rows
        · subst h; exact absurd heq (by simp)
        · subst h; exact absurd heq (by simp)
        · subst h; exact absurd heq (by simp)
  · intro m hm r c hr hc
    unfold Mat.bottomRows Mat.mk'
    simp only [hm]
    rw [if_pos ⟨hr, hc⟩]
    congr 1
    omega

/-- C2 witness: the theorem applied at a concrete configuration with
`num_iter = 2`, `num_burn = 1`. -/
theorem c2_witness :
    (mkTestCfg 1 2 1 1).num_burn ≤ (mkTestCfg 1 2 1 1).num_iter ∧
    (svIter (mkTestCfg 1 2 1 1) svExtTriv (fun _ => false) (mkTestCfg 1 2 1 1).num_iter 1
      (svInit (mkTestCfg 1 2 1 1) svExtTriv)).1.coef_record.rows =
      (mkTestCfg 1 2 1 1).num_iter + 1 :=
  ⟨by decide, (c2_rows_and_trim (mkTestCfg 1 2 1 1) svExtTriv (by decide)).1⟩

/-- C1, amended: cancelling at the iteration boundary after completing 5
of 100 iterations returns a bundle with the same field names as a full
run, but every non-volatility trajectory still has the full preallocated
`num_iter + 1 = 101` rows (the first six holding iterations 0..5, later
rows remaining at their initialisation values), and the volatility record
its full `num_design · 101` rows — not 6 rows. -/
theorem c1_cancel_amended (cfg : SvCfg) (ext : SvExt) (h100 : cfg.num_iter = 100) :
    (estimate_var_sv cfg ext (fun i => i == 6)).map Prod.fst =
      (estimate_var_sv cfg ext (fun _ => false)).map Prod.fst ∧
    (∀ pr ∈ estimate_var_sv cfg ext (fun i => i == 6), pr.1 ≠ "h_record" →
      pr.2.rows = 101) ∧
    (∀ pr ∈ estimate_var_sv cfg ext (fun i => i == 6), pr.1 = "h_record" →
      pr.2.rows = cfg.numDesign * 101) := by
  have hd : SvDimsOK cfg
      (svIter cfg ext (fun i => i == 6) cfg.num_iter 1 (svInit cfg ext)).1 :=
    svIter_dims cfg ext _ cfg.num_iter 1 _ (svInit_dims cfg ext)
  have hab := svIter_abort6_snd cfg ext h100
  refine ⟨?_, ?_, ?_⟩
  · simp only [estimate_var_sv]
    rw [svBundle_names, svBundle_names]
  · intro pr hpr hneq
    simp only [estimate_var_sv] at hpr
    rw [hab] at hpr
    unfold svBundle at hpr
    by_cases h2 : cfg.prior_type = 2
    · simp [h2] at hpr
      rcases hpr with h | h | h | h | h | h
      · subst h; exact hd.coef_rows.trans (by rw [h100])
      · subst h; exact absurd rfl hneq
      · subst h; exact hd.contem_rows.trans (by rw [h100])
      · subst h; exact hd.h0_rows.trans (by rw [h100])
      · subst h; exact hd.sig_rows.trans (by rw [h100])
      · subst h; exact hd.cdummy_rows.trans (by rw [h100])
    · by_cases h3 : cfg.prior_type = 3
      · simp [h2, h3] at hpr
        rcases hpr with h | h | h | h | h | h | h | h
        · subst h; exact hd.coef_rows.trans (by rw [h100])
        · subst h; exact absurd rfl hneq
        · subst h; exact hd.contem_rows.trans (by rw [h100])
        · subst h; exact hd.h0_rows.trans (by rw [h100])
        · subst h; exact hd.sig_rows.trans (by rw [h100])
        · subst h; exact hd.local_rows.trans (by rw [h100])
        · subst h; exact hd.global_rows.trans (by rw [h100])
        · subst h; exact hd.shrink_rows.trans (by rw [h100])
      · simp [h2, h3] at hpr
        rcases hpr with h | h | h | h | h
        · subst h; exact hd.coef_rows.trans (by rw [h100])
        · subst h; exact absurd rfl hneq
        · subst h; exact hd.contem_rows.trans (by rw [h100])
        · subst h; exact hd.h0_rows.trans (by rw [h100])
        · subst h; exact hd.sig_rows.trans (by rw [h100])
  · intro pr hpr heq
    simp only [estimate_var_sv] at hpr
    rw [hab] at hpr
    unfold svBundle at hpr
    by_cases h2 : cfg.prior_type = 2
    · simp [h2] at hpr
      rcases hpr with h | h | h | h | h | h
      · subst h; exact absurd heq (by simp)
      · subst h; exact hd.h_rows.trans (by rw [h100])
      · subst h; exact absurd heq (by simp)
      · subst h; exact absurd heq (by simp)
      · subst h; exact absurd heq (by simp)
      · subst h; exact absurd heq (by simp)
    · by_cases h3 : cfg.prior_type = 3
      · simp [h2, h3] at hpr
        rcases hpr with h | h | h | h | h | h | h | h
        · subst h; exact absurd heq (by simp)
        · subst h; exact hd.h_rows.trans (by rw [h100])
        · subst h; exact absurd heq (by simp)
        · subst h; exact absurd heq (by simp)
        · subst h; exact absurd heq (by simp)
        · subst h; exact absurd heq (by simp)
        · subst h; exact absurd heq (by simp)
        · subst h; exact absurd heq (by simp)
      · simp [h2, h3] at hpr
        rcases hpr with h | h | h | h | h
        · subst h; exact absurd heq (by simp)
        · subst h; exact hd.h_rows.trans (by rw [h100])
        · subst h; exact absurd heq (by simp)
        · subst h; exact absurd heq (by simp)
        · subst h; exact absurd heq (by simp)

/-- C1 witness: the amended theorem applied at a concrete configuration
(regime 1, 100 iterations, burn-in 10). -/
theorem c1_witness :
    (mkTestCfg 1 100 10 1).num_iter = 100 ∧
    (∀ pr ∈ estimate_var_sv (mkTestCfg 1 100 10 1) svExtTriv (fun i => i == 6),
      pr.1 ≠ "h_record" → pr.2.rows = 101) :=
  ⟨rfl, (c1_cancel_amended (mkTestCfg 1 100 10 1) svExtTriv rfl).2.1⟩

/-- C1 counterexample: with 100 iterations, burn-in 10, regime 1 and
cancellation at the sixth iteration boundary (after 5 completed
iterations), the first returned trajectory (`alpha_record`) has 101 rows,
not the 6 rows the claim asserts. -/
theorem c1_counterexample :
    ((estimate_var_sv (mkTestCfg 1 100 10 1) svExtTriv (fun i => i == 6)).head?.map
      (fun pr => pr.2.rows)) = some 101 ∧ (101 : ℕ) ≠ 6 := by
  constructor
  · have hd : SvDimsOK (mkTestCfg 1 100 10 1)
        (svIter (mkTestCfg 1 100 10 1) svExtTriv (fun i => i == 6)
          (mkTestCfg 1 100 10 1).num_iter 1
          (svInit (mkTestCfg 1 100 10 1) svExtTriv)).1 :=
      svIter_dims _ _ _ _ _ _ (svInit_dims _ _)
    have hab := svIter_abort6_snd (mkTestCfg 1 100 10 1) svExtTriv rfl
    simp only [estimate_var_sv]
    rw [hab]
    unfold svBundle
    rw [if_pos rfl, if_neg (by decide), if_neg (by decide)]
    simp [hd.coef_rows]
    rfl
  · decide

/-- One sweep under an unrecognised regime tag leaves the coefficient
record and the coefficient prior precision untouched: both switches fall
through without assigning them. -/
theorem svStep_unrecognized (cfg : SvCfg) (ext : SvExt) (i : ℕ) (st : SvState)
    (h1 : cfg.prior_type ≠ 1) (h2 : cfg.prior_type ≠ 2) (h3 : cfg.prior_type ≠ 3) :
    (svStep cfg ext i st).coef_record = st.coef_record ∧
    (svStep cfg ext i st).prior_alpha_prec = st.prior_alpha_prec := by
  constructor <;>
    simp [svStep, svWrite, svDraws, svCoefOut, svCoefStep, svContemStep, h1, h2, h3,
      optSetRow, svCarryOf]

/-- The whole loop under an unrecognised regime tag leaves the coefficient
record and the coefficient prior precision untouched. -/
theorem svIter_unrecognized (cfg : SvCfg) (ext : SvExt)
    (h1 : cfg.prior_type ≠ 1) (h2 : cfg.prior_type ≠ 2) (h3 : cfg.prior_type ≠ 3) :
    ∀ (fuel i : ℕ) (st : SvState),
      (svIter cfg ext (fun _ => false) fuel i st).1.coef_record = st.coef_record ∧
      (svIter cfg ext (fun _ => false) fuel i st).1.prior_alpha_prec =
        st.prior_alpha_prec := by
  intro fuel
  induction fuel with
  | zero => intro i st; exact ⟨rfl, rfl⟩
  | succ n ih =>
    intro i st
    rw [svIter_succ, if_neg (by simp)]
    have hs := svStep_unrecognized cfg ext i st h1 h2 h3
    have hi := ih (i + 1) (svStep cfg ext i st)
    exact ⟨hi.1.trans hs.1, hi.2.trans hs.2⟩

/-- C4, amended: the prior configurator performs no tag validation: with a
tag outside {1, 2, 3} the run completes normally with the default 5-field
bundle; the prior mean stays default (zero), the coefficient prior
precision stays the default-constructed zero matrix, and the coefficient
rows beyond row 0 are never written. -/
theorem c4_unrecognized_amended (cfg : SvCfg) (ext : SvExt)
    (h1 : cfg.prior_type ≠ 1) (h2 : cfg.prior_type ≠ 2) (h3 : cfg.prior_type ≠ 3) :
    (estimate_var_sv cfg ext (fun _ => false)).map Prod.fst =
      ["alpha_record", "h_record", "a_record", "h0_record", "sigh_record"] ∧
    priorAlphaMean cfg = Vec.mk' cfg.numCoef (fun _ => 0) ∧
    (svIter cfg ext (fun _ => false) cfg.num_iter 1 (svInit cfg ext)).1.prior_alpha_prec =
      Mat.zero cfg.numCoef cfg.numCoef ∧
    (∀ r c : ℕ, 1 ≤ r →
      (svIter cfg ext (fun _ => false) cfg.num_iter 1
        (svInit cfg ext)).1.coef_record.entry r c = 0) := by
  refine ⟨?_, ?_, ?_, ?_⟩
  · simp only [estimate_var_sv]
    rw [svBundle_names]
    simp [h2, h3]
  · unfold priorAlphaMean
    rw [if_neg h1, if_neg h2, if_neg h3]
  · rw [(svIter_unrecognized cfg ext h1 h2 h3 cfg.num_iter 1 (svInit cfg ext)).2]
    unfold svInit
    simp [h1]
  · intro r c hr
    rw [(svIter_unrecognized cfg ext h1 h2 h3 cfg.num_iter 1 (svInit cfg ext)).1]
    have hr0 : r ≠ 0 := by omega
    simp [svInit, Mat.setRow, Mat.zero, Mat.mk', hr0]

/-- C4 witness: the amended theorem applied at the concrete tag 0. -/
theorem c4_witness :
    ((mkTestCfg 0 1 0 1).prior_type ≠ 1 ∧ (mkTestCfg 0 1 0 1).prior_type ≠ 2 ∧
      (mkTestCfg 0 1 0 1).prior_type ≠ 3) ∧
    (estimate_var_sv (mkTestCfg 0 1 0 1) svExtTriv (fun _ => false)).map Prod.fst =
      ["alpha_record", "h_record", "a_record", "h0_record", "sigh_record"] :=
  ⟨⟨by decide, by decide, by decide⟩,
    (c4_unrecognized_amended (mkTestCfg 0 1 0 1) svExtTriv (by decide) (by decide)
      (by decide)).1⟩

/-- C4 counterexample: with the unrecognised tag 0 the sampler does not
fail — it returns the ordinary 5-field bundle — and it proceeds with the
default-constructed prior precision (still zero after the run). -/
theorem c4_counterexample :
    (estimate_var_sv (mkTestCfg 0 1 0 1) svExtTriv (fun _ => false)).map Prod.fst =
      ["alpha_record", "h_record", "a_record", "h0_record", "sigh_record"] ∧
    (svIter (mkTestCfg 0 1 0 1) svExtTriv (fun _ => false) 1 1
      (svInit (mkTestCfg 0 1 0 1) svExtTriv)).1.prior_alpha_prec.entry 0 0 = 0 := by
  constructor
  · simp only [estimate_var_sv]
    rw [svBundle_names]
    rfl
  · rw [(svIter_unrecognized (mkTestCfg 0 1 0 1) svExtTriv (by decide) (by decide)
      (by decide) 1 1 (svInit (mkTestCfg 0 1 0 1) svExtTriv)).2]
    rfl

/-- C3, amended: under the SSVS regime the returned bundle consists of
exactly the five base trajectories plus the binary inclusion-indicator
trajectory (`gamma_record`); the inclusion-weight trajectory is recorded
internally each iteration but is not part of the returned bundle. -/
theorem c3_ssvs_bundle_amended (cfg : SvCfg) (ext : SvExt)
    (h2 : cfg.prior_type = 2) :
    (estimate_var_sv cfg ext (fun _ => false)).map Prod.fst =
      ["alpha_record", "h_record", "a_record", "h0_record", "sigh_record",
       "gamma_record"] := by
  simp only [estimate_var_sv]
  rw [svBundle_names]
  simp [h2]

/-- C3 witness: the amended theorem applied at a concrete SSVS
configuration. -/
theorem c3_witness :
    (mkTestCfg 2 1 0 1).prior_type = 2 ∧
    (estimate_var_sv (mkTestCfg 2 1 0 1) svExtTriv (fun _ => false)).map Prod.fst =
      ["alpha_record", "h_record", "a_record", "h0_record", "sigh_record",
       "gamma_record"] :=
  ⟨rfl, c3_ssvs_bundle_amended (mkTestCfg 2 1 0 1) svExtTriv rfl⟩

/-- C3 counterexample: a concrete SSVS run returns exactly six labelled
trajectories — the five base records plus the inclusion indicators — so no
inclusion-weight trajectory is returned, contradicting the claim that both
SSVS extras are included. -/
theorem c3_counterexample :
    (estimate_var_sv (mkTestCfg 2 1 0 1) svExtTriv (fun _ => false)).map Prod.fst =
      ["alpha_record", "h_record", "a_record", "h0_record", "sigh_record",
       "gamma_record"] ∧
    (estimate_var_sv (mkTestCfg 2 1 0 1) svExtTriv (fun _ => false)).length = 6 := by
  constructor
  · simp only [estimate_var_sv]
    rw [svBundle_names]
    rfl
  · simp only [estimate_var_sv]
    unfold svBundle
    rw [svIter_noabort]
    rfl

/-- Extensionality for the matrix embedding. -/
theorem matExt (a b : Mat) (hr : a.rows = b.rows) (hc : a.cols = b.cols)
    (he : ∀ i j, a.entry i j = b.entry i j) : a = b := by
  cases a
  cases b
  simp only [Mat.mk.injEq]
  exact ⟨hr, hc, funext fun i => funext fun j => he i j⟩

/-- Extensionality for the vector embedding. -/
theorem vecExt (a b : Vec) (hs : a.size = b.size)
    (he : ∀ i, a.entry i = b.entry i) : a = b := by
  cases a
  cases b
  simp only [Vec.mk.injEq]
  exact ⟨hs, funext fun i => he i⟩

/-- The volatility record after a sweep is the old record with the new
block written at rows `num_design·i ..`. -/
theorem svStep_lvol (cfg : SvCfg) (ext : SvExt) (i : ℕ) (st : SvState) :
    (svStep cfg ext i st).lvol_record =
      st.lvol_record.setBlock (cfg.numDesign * i) 0
        (svHBlock cfg ext i (svPrevOf cfg i st) (svCarryOf st)) := rfl

/-- The coefficient record after a sweep. -/
theorem svStep_coef (cfg : SvCfg) (ext : SvExt) (i : ℕ) (st : SvState) :
    (svStep cfg ext i st).coef_record =
      optSetRow st.coef_record i
        (svCoefOut cfg ext i (svPrevOf cfg i st) (svCarryOf st)).coef_row := rfl

/-- C7 (amended): in every iteration and under every regime, the
observation vector fed to the volatility-path update of equation `t` is,
entrywise, `log(e² + 1e-4)`, where `e` is the corresponding entry of
`(Y - X·M)·Lᵀ` and `M` is the matrix the line-298 default-stride map
reads back from the post-write coefficient record: `num_coef` consecutive
storage cells of the column-major record starting at entry `(i, 0)`.
`M` coincides with the just-drawn coefficient matrix (row `i` reshaped)
only when that read stays inside row `i`; in general it mixes entries of
other recorded rows, as the counterexample shows. -/
theorem c7_sv_observations_amended (cfg : SvCfg) (ext : SvExt) (i : ℕ) (st : SvState)
    (hdims : SvDimsOK cfg st) (hi : i ≤ cfg.num_iter) (r t : ℕ)
    (hr : r < cfg.numDesign) (ht : t < cfg.dim) :
    (svStep cfg ext i st).lvol_record.entry (cfg.numDesign * i + r) t =
      (ext.ht_draw i t ((svPrevOf cfg i st).h_prev.colVec t)
        ((svPrevOf cfg i st).h0_prev.entry t) ((svPrevOf cfg i st).sig_prev.entry t)
        (Vec.mk' cfg.numDesign (fun s => ext.logQ
          ((((cfg.y.sub (cfg.x.mul (rowDataMap
              ((svStep cfg ext i st).coef_record) i cfg.dimDesign cfg.dim))).mul
            (build_inv_lower cfg.dim
              (st.contem_coef_record.row (i - 1))).transpose).entry s t) ^ 2
          + 1 / 10000)))
        cfg.nthreads).entry r := by
  have hli : svLatentInnov cfg ext i (svPrevOf cfg i st) (svCarryOf st) =
      cfg.y.sub (cfg.x.mul (rowDataMap
        ((svStep cfg ext i st).coef_record) i cfg.dimDesign cfg.dim)) := rfl
  have hobs : (svOrtho cfg ext i (svPrevOf cfg i st) (svCarryOf st)).colVec t =
      Vec.mk' cfg.numDesign (fun s => ext.logQ
        ((((cfg.y.sub (cfg.x.mul (rowDataMap
            ((svStep cfg ext i st).coef_record) i cfg.dimDesign cfg.dim))).mul
          (build_inv_lower cfg.dim
            (st.contem_coef_record.row (i - 1))).transpose).entry s t) ^ 2
        + 1 / 10000)) := by
    apply vecExt
    · rfl
    · intro s
      simp only [svOrtho]
      rw [hli]
      simp only [svPrevOf, Mat.colVec, Vec.mk', Mat.mk',
        Mat.mul_rows, Mat.mul_cols, Mat.sub_rows, Mat.transpose_cols,
        Mat.mk'_rows, Mat.mk'_cols]
      simp [SvCfg.numDesign,
        show (build_inv_lower cfg.dim
          (st.contem_coef_record.row (i - 1))).rows = cfg.dim from rfl, ht]
      intro h
      rw [if_neg (by omega)]
  have hrowlt : cfg.numDesign * i + r < st.lvol_record.rows := by
    rw [hdims.h_rows]
    calc cfg.numDesign * i + r < cfg.numDesign * i + cfg.numDesign := by omega
      _ = cfg.numDesign * (i + 1) := by ring
      _ ≤ cfg.numDesign * (cfg.num_iter + 1) := Nat.mul_le_mul_left _ (by omega)
  have hcol : t < st.lvol_record.cols := by rw [hdims.h_cols]; exact ht
  rw [svStep_lvol]
  unfold Mat.setBlock Mat.mk'
  simp only
  rw [if_pos ⟨hrowlt, hcol⟩]
  rw [if_pos ⟨Nat.le_add_right _ _,
    by simp [svHBlock]; omega, by omega, by simp [svHBlock]; omega⟩]
  rw [Nat.add_sub_cancel_left, Nat.sub_zero]
  unfold svHBlock Mat.mk'
  simp only
  rw [if_pos ⟨hr, ht⟩]
  rw [hobs]

/-- The loading record after a sweep. -/
theorem svStep_contem (cfg : SvCfg) (ext : SvExt) (i : ℕ) (st : SvState) :
    (svStep cfg ext i st).contem_coef_record =
      st.contem_coef_record.setRow i
        (svContemOut cfg ext i (svPrevOf cfg i st) (svCarryOf st)).contem_row := rfl

/-- The innovation-variance record after a sweep. -/
theorem svStep_sig (cfg : SvCfg) (ext : SvExt) (i : ℕ) (st : SvState) :
    (svStep cfg ext i st).lvol_sig_record =
      st.lvol_sig_record.setRow i
        (svSigRow cfg ext i (svPrevOf cfg i st) (svCarryOf st)) := rfl

/-- The initial-state record after a sweep. -/
theorem svStep_h0 (cfg : SvCfg) (ext : SvExt) (i : ℕ) (st : SvState) :
    (svStep cfg ext i st).lvol_init_record =
      st.lvol_init_record.setRow i
        (svH0Row cfg ext i (svPrevOf cfg i st) (svCarryOf st)) := rfl

/-- Whatever the regime, the loading row drawn in step 3 is a regression
draw on the residual design built from the step-2 residual matrix (the
line-298 coefficient read-back), with the block-diagonal innovation
precision built from the previous volatility block. -/
theorem svContemOut_row (cfg : SvCfg) (ext : SvExt) (i : ℕ) (pv : SvPrev)
    (cr : SvCarry) :
    ∃ pcp : Mat, (svContemOut cfg ext i pv cr).contem_row =
      ext.reg_draw i 1 (reginnovStack cfg (svLatentInnov cfg ext i pv cr))
        (vectorize_eigen (svLatentInnov cfg ext i pv cr)) (priorCholMean cfg) pcp
        (svInnovPrec cfg ext pv) := by
  unfold svContemOut svContemStep
  by_cases h2 : cfg.prior_type = 2
  · simp only [h2]
    norm_num
    exact ⟨_, rfl⟩
  · by_cases h3 : cfg.prior_type = 3
    · simp only [h3]
      norm_num
      exact ⟨_, rfl⟩
    · simp only [if_neg h2, if_neg h3]
      exact ⟨_, rfl⟩

/-- C8: one sweep performs the five updates in the fixed source order with
the claimed dataflow: the coefficient row is drawn first from the previous
iteration's state; the volatility block is drawn from the orthogonalised
residuals under the line-298 coefficient read-back; the loading row is a
regression draw on the residual design built from the same residuals; the innovation-variance row is an inverse-gamma draw whose
shape and rate add the prior shape 3 and scale 1/100 to half the path
length and half the sum of squared increments of the just-drawn path; and
the initial-state row is a Gaussian draw combining the prior (mean 1,
precision 1/10) with the first value of the just-drawn path,
precision-weighted by the just-drawn innovation variance. -/
theorem c8_update_order (cfg : SvCfg) (ext : SvExt) (i : ℕ) (st : SvState)
    (hdims : SvDimsOK cfg st) (hi : i ≤ cfg.num_iter) :
    ((svStep cfg ext i st).coef_record =
      optSetRow st.coef_record i
        (svCoefOut cfg ext i (svPrevOf cfg i st) (svCarryOf st)).coef_row) ∧
    ((svStep cfg ext i st).lvol_record =
      st.lvol_record.setBlock (cfg.numDesign * i) 0
        (Mat.mk' cfg.numDesign cfg.dim (fun r t =>
          (ext.ht_draw i t ((svPrevOf cfg i st).h_prev.colVec t)
            ((svPrevOf cfg i st).h0_prev.entry t)
            ((svPrevOf cfg i st).sig_prev.entry t)
            ((svOrtho cfg ext i (svPrevOf cfg i st) (svCarryOf st)).colVec t)
            cfg.nthreads).entry r))) ∧
    (∃ pcp : Mat, (svStep cfg ext i st).contem_coef_record =
      st.contem_coef_record.setRow i
        (ext.reg_draw i 1
          (reginnovStack cfg (svLatentInnov cfg ext i (svPrevOf cfg i st) (svCarryOf st)))
          (vectorize_eigen (svLatentInnov cfg ext i (svPrevOf cfg i st) (svCarryOf st)))
          (priorCholMean cfg) pcp
          (svInnovPrec cfg ext (svPrevOf cfg i st)))) ∧
    (∀ j, j < cfg.dim →
      (svStep cfg ext i st).lvol_sig_record.entry i j =
        ext.ig_draw i j (3 + (cfg.numDesign : ℚ) / 2)
          (1 / 100 + (∑ t in Finset.range cfg.numDesign,
            ((svHBlock cfg ext i (svPrevOf cfg i st) (svCarryOf st)).entry t j -
              (if t = 0 then (svPrevOf cfg i st).h0_prev.entry j
               else (svHBlock cfg ext i (svPrevOf cfg i st) (svCarryOf st)).entry
                 (t - 1) j)) ^ 2) / 2)) ∧
    (∀ j, j < cfg.dim →
      (svStep cfg ext i st).lvol_init_record.entry i j =
        ext.gauss_draw i j
          ((1 / 10 * 1 +
            ((svHBlock cfg ext i (svPrevOf cfg i st) (svCarryOf st)).row 0).entry j /
              (svSigRow cfg ext i (svPrevOf cfg i st) (svCarryOf st)).entry j) /
            (1 / 10 + 1 / (svSigRow cfg ext i (svPrevOf cfg i st) (svCarryOf st)).entry j))
          (1 / 10 + 1 / (svSigRow cfg ext i (svPrevOf cfg i st) (svCarryOf st)).entry j)) := by
  refine ⟨rfl, rfl, ?_, ?_, ?_⟩
  · obtain ⟨pcp, hp⟩ :=
      svContemOut_row cfg ext i (svPrevOf cfg i st) (svCarryOf st)
    exact ⟨pcp, by rw [svStep_contem, hp]⟩
  · intro j hj
    rw [svStep_sig]
    unfold Mat.setRow Mat.mk'
    simp only
    rw [if_pos ⟨by rw [hdims.sig_rows]; omega, by rw [hdims.sig_cols]; exact hj⟩]
    simp only [if_true]
    unfold svSigRow varsv_sigh Vec.mk'
    simp only
    rw [if_pos (show j < (priorSigShp cfg).size from by simpa [priorSigShp] using hj)]
    simp [priorSigShp, priorSigScl, Vec.mk', hj,
      show (svHBlock cfg ext i (svPrevOf cfg i st) (svCarryOf st)).rows =
        cfg.numDesign from rfl]
  · intro j hj
    rw [svStep_h0]
    unfold Mat.setRow Mat.mk'
    simp only
    rw [if_pos ⟨by rw [hdims.h0_rows]; omega, by rw [hdims.h0_cols]; exact hj⟩]
    simp only [if_true]
    unfold svH0Row varsv_h0 Vec.mk'
    simp only
    rw [if_pos (show j < (priorInitMean cfg).size from by simpa [priorInitMean] using hj)]
    simp [priorInitMean, priorInitPrec, Mat.mk', Vec.mk', hj]

/-- C7 witness: the amended observation formula instantiated at a
concrete configuration, iteration 1, time 0, equation 0. -/
theorem c7_witness :
    (svStep (mkTestCfg 1 1 0 1) svExtTriv 1
        (svInit (mkTestCfg 1 1 0 1) svExtTriv)).lvol_record.entry
        ((mkTestCfg 1 1 0 1).numDesign * 1 + 0) 0 =
      (svExtTriv.ht_draw 1 0
        ((svPrevOf (mkTestCfg 1 1 0 1) 1
          (svInit (mkTestCfg 1 1 0 1) svExtTriv)).h_prev.colVec 0)
        ((svPrevOf (mkTestCfg 1 1 0 1) 1
          (svInit (mkTestCfg 1 1 0 1) svExtTriv)).h0_prev.entry 0)
        ((svPrevOf (mkTestCfg 1 1 0 1) 1
          (svInit (mkTestCfg 1 1 0 1) svExtTriv)).sig_prev.entry 0)
        (Vec.mk' (mkTestCfg 1 1 0 1).numDesign (fun s => svExtTriv.logQ
          (((((mkTestCfg 1 1 0 1).y.sub ((mkTestCfg 1 1 0 1).x.mul (rowDataMap
              ((svStep (mkTestCfg 1 1 0 1) svExtTriv 1
                (svInit (mkTestCfg 1 1 0 1) svExtTriv)).coef_record)
              1 (mkTestCfg 1 1 0 1).dimDesign (mkTestCfg 1 1 0 1).dim))).mul
            (build_inv_lower (mkTestCfg 1 1 0 1).dim
              ((svInit (mkTestCfg 1 1 0 1) svExtTriv).contem_coef_record.row
                (1 - 1))).transpose).entry s 0) ^ 2
          + 1 / 10000)))
        (mkTestCfg 1 1 0 1).nthreads).entry 0 :=
  c7_sv_observations_amended (mkTestCfg 1 1 0 1) svExtTriv 1
    (svInit (mkTestCfg 1 1 0 1) svExtTriv) (svInit_dims _ _) (by decide) 0 0
    (by decide) (by decide)

/-- C7 counterexample: at a concrete configuration with `num_iter = 1` and
`num_coef = 2`, the observation the path update of equation 1 receives at
iteration 1 — echoed into the volatility record by the path sampler —
differs from `log(e² + 1e-4)` computed with `e` the residual under the
just-drawn coefficient matrix (row 1 of the post-sweep record, reshaped):
the line-298 map reads the record storage cell holding the iteration-0
entry `(0, 1)` in place of the just-drawn entry `(1, 1)`. -/
theorem c7_counterexample :
    ¬((svStep (mkTestCfg 1 1 0 1) svExtEcho 1
        (svInit (mkTestCfg 1 1 0 1) svExtEcho)).lvol_record.entry
        ((mkTestCfg 1 1 0 1).numDesign * 1 + 0) 1 =
      svExtEcho.logQ
        (((((mkTestCfg 1 1 0 1).y.sub ((mkTestCfg 1 1 0 1).x.mul (unvectorize
            ((svStep (mkTestCfg 1 1 0 1) svExtEcho 1
              (svInit (mkTestCfg 1 1 0 1) svExtEcho)).coef_record.row 1)
            (mkTestCfg 1 1 0 1).dimDesign (mkTestCfg 1 1 0 1).dim))).mul
          (build_inv_lower (mkTestCfg 1 1 0 1).dim
            ((svInit (mkTestCfg 1 1 0 1) svExtEcho).contem_coef_record.row
              (1 - 1))).transpose).entry 0 1) ^ 2
        + 1 / 10000)) := by
  with_unfolding_all decide

/-- C8 witness: the innovation-variance dataflow conjunct of the theorem
instantiated at a concrete configuration, iteration 1, equation 0. -/
theorem c8_witness :
    (svStep (mkTestCfg 1 1 0 1) svExtTriv 1
        (svInit (mkTestCfg 1 1 0 1) svExtTriv)).lvol_sig_record.entry 1 0 =
      svExtTriv.ig_draw 1 0 (3 + ((mkTestCfg 1 1 0 1).numDesign : ℚ) / 2)
        (1 / 100 + (∑ t in Finset.range (mkTestCfg 1 1 0 1).numDesign,
          ((svHBlock (mkTestCfg 1 1 0 1) svExtTriv 1
              (svPrevOf (mkTestCfg 1 1 0 1) 1 (svInit (mkTestCfg 1 1 0 1) svExtTriv))
              (svCarryOf (svInit (mkTestCfg 1 1 0 1) svExtTriv))).entry t 0 -
            (if t = 0 then
              (svPrevOf (mkTestCfg 1 1 0 1) 1
                (svInit (mkTestCfg 1 1 0 1) svExtTriv)).h0_prev.entry 0
             else (svHBlock (mkTestCfg 1 1 0 1) svExtTriv 1
              (svPrevOf (mkTestCfg 1 1 0 1) 1 (svInit (mkTestCfg 1 1 0 1) svExtTriv))
              (svCarryOf (svInit (mkTestCfg 1 1 0 1) svExtTriv))).entry (t - 1) 0)) ^ 2)
          / 2) :=
  (c8_update_order (mkTestCfg 1 1 0 1) svExtTriv 1
    (svInit (mkTestCfg 1 1 0 1) svExtTriv) (svInit_dims _ _)
    (by decide)).2.2.2.1 0 (by decide)

/-! ## Congruence lemmas for the Markov analysis (claim C9) -/

/-- The innovation precision depends only on the previous volatility
block. -/
theorem svInnovPrec_congr (cfg : SvCfg) (ext : SvExt) (pv pv' : SvPrev)
    (hh : pv.h_prev = pv'.h_prev) :
    svInnovPrec cfg ext pv = svInnovPrec cfg ext pv' := by
  unfold svInnovPrec
  rw [hh]

/-- The residual precision stack depends only on the previous loadings and
the previous volatility block. -/
theorem svPrecStack_congr (cfg : SvCfg) (ext : SvExt) (pv pv' : SvPrev)
    (ha : pv.a_prev = pv'.a_prev) (hh : pv.h_prev = pv'.h_prev) :
    svPrecStack cfg ext pv = svPrecStack cfg ext pv' := by
  unfold svPrecStack
  rw [ha, svInnovPrec_congr cfg ext pv pv' hh]

/-- Overwriting the diagonal erases any difference between two matrices of
the same shape that agree off the diagonal. -/
theorem setDiag_congr (A B : Mat) (hr : A.rows = B.rows) (hc : A.cols = B.cols)
    (hod : ∀ r c, r ≠ c → A.entry r c = B.entry r c) (v : Vec) :
    A.setDiag v = B.setDiag v := by
  refine matExt _ _ (by simp [hr]) (by simp [hc]) fun r c => ?_
  unfold Mat.setDiag Mat.mk'
  simp only [hr, hc]
  by_cases h : r < B.rows ∧ c < B.cols
  · rw [if_pos h, if_pos h]
    by_cases hd : r = c
    · rw [if_pos hd, if_pos hd]
    · rw [if_neg hd, if_neg hd, hod r c hd]
  · rw [if_neg h, if_neg h]

/-- An entry of the iterated group-select that is matched by some group id
does not depend on the carried matrix. -/
theorem grpSelect_entry_congr (g : Mat) (gid : VecZ) (vals : ℕ → ℚ)
    (rows cols : ℕ) :
    ∀ (n : ℕ) (carry carry' : Mat) (r c : ℕ),
      (∃ jj, jj < n ∧ g.entry r c = (gid.entry jj : ℚ)) →
      (grpSelect g gid vals rows cols n carry).entry r c =
        (grpSelect g gid vals rows cols n carry').entry r c := by
  intro n
  induction n with
  | zero => intro carry carry' r c h; obtain ⟨jj, hj, _⟩ := h; omega
  | succ n ih =>
    intro carry carry' r c h
    unfold grpSelect Mat.mk'
    simp only
    by_cases hin : r < rows ∧ c < cols
    · rw [if_pos hin, if_pos hin]
      by_cases hm : g.entry r c = (gid.entry n : ℚ)
      · rw [if_pos hm, if_pos hm]
      · rw [if_neg hm, if_neg hm]
        obtain ⟨jj, hj, hjm⟩ := h
        have hjj : jj < n := by
          rcases Nat.lt_succ_iff_lt_or_eq.mp hj with h' | h'
          · exact h'
          · exact absurd (h' ▸ hjm) hm
        exact ih carry carry' r c ⟨jj, hjj, hjm⟩
    · rw [if_neg hin, if_neg hin]

/-- Under group coverage the vectorised group-select is independent of the
carried matrix (of matching shape). -/
theorem grpSelect_vectorize_congr (g : Mat) (gid : VecZ) (vals : ℕ → ℚ)
    (rows cols n : ℕ) (carry carry' : Mat)
    (hcov : ∀ r c, r < rows → c < cols →
      ∃ jj, jj < n ∧ g.entry r c = (gid.entry jj : ℚ))
    (h1 : carry.rows = rows) (h2 : carry.cols = cols)
    (h3 : carry'.rows = rows) (h4 : carry'.cols = cols) :
    vectorize_eigen (grpSelect g gid vals rows cols n carry) =
      vectorize_eigen (grpSelect g gid vals rows cols n carry') := by
  have hdim : ∀ carry'' : Mat, carry''.rows = rows → carry''.cols = cols →
      (grpSelect g gid vals rows cols n carry'').rows = rows ∧
      (grpSelect g gid vals rows cols n carry'').cols = cols := by
    intro carry'' ha hb
    cases n with
    | zero => exact ⟨ha, hb⟩
    | succ m => exact ⟨rfl, rfl⟩
  obtain ⟨ha1, ha2⟩ := hdim carry h1 h2
  obtain ⟨hb1, hb2⟩ := hdim carry' h3 h4
  unfold vectorize_eigen
  rw [ha1, ha2, hb1, hb2]
  refine vecExt _ _ rfl fun k => ?_
  unfold Vec.mk'
  simp only
  by_cases hk : k < rows * cols
  · rw [if_pos hk, if_pos hk]
    have hrowpos : 0 < rows := by
      rcases Nat.eq_zero_or_pos rows with h | h
      · subst h; simp at hk
      · exact h
    have hr : k % rows < rows := Nat.mod_lt _ hrowpos
    have hc : k / rows < cols := Nat.div_lt_of_lt_mul hk
    exact grpSelect_entry_congr g gid vals rows cols n carry carry' _ _
      (hcov _ _ hr hc)
  · rw [if_neg hk, if_neg hk]

/-- Row `i` after overwriting row `i` does not depend on the base matrix
beyond its shape. -/
theorem setRow_row_congr (A B : Mat) (i : ℕ) (v : Vec)
    (hr : A.rows = B.rows) (hc : A.cols = B.cols) :
    (A.setRow i v).row i = (B.setRow i v).row i := by
  refine vecExt _ _ (by simp [hc]) fun j => ?_
  unfold Mat.row Mat.setRow Mat.mk' Vec.mk'
  simp [hr, hc]

/-- The block just written does not depend on the base matrix beyond its
shape, provided the written block fills the extracted window. -/
theorem setBlock_block_congr (A B bm : Mat) (r0 nr nc : ℕ)
    (hr : A.rows = B.rows) (hc : A.cols = B.cols)
    (hbr : bm.rows = nr) (hbc : bm.cols = nc) :
    (A.setBlock r0 0 bm).block r0 0 nr nc =
      (B.setBlock r0 0 bm).block r0 0 nr nc := by
  refine matExt _ _ rfl rfl fun r c => ?_
  unfold Mat.block Mat.setBlock Mat.mk'
  simp only [hr, hc]
  by_cases h : r < nr ∧ c < nc
  · obtain ⟨h1, h2⟩ := h
    rw [if_pos (show r < nr ∧ c < nc from ⟨h1, h2⟩),
      if_pos (show r < nr ∧ c < nc from ⟨h1, h2⟩)]
    by_cases hin : r0 + r < B.rows ∧ 0 + c < B.cols
    · have hblk : r0 ≤ r0 + r ∧ r0 + r < r0 + bm.rows ∧ 0 ≤ 0 + c ∧ 0 + c < 0 + bm.cols :=
        ⟨Nat.le_add_right _ _, by rw [hbr]; omega, Nat.zero_le _, by rw [hbc]; omega⟩
      rw [if_pos hin, if_pos hin, if_pos hblk, if_pos hblk]
    · rw [if_neg hin, if_neg hin]
  · rw [if_neg (show ¬(r < nr ∧ c < nc) from h), if_neg (show ¬(r < nr ∧ c < nc) from h)]

/-- Writing a present row erases any difference between two records of the
same shape at the written row. -/
theorem optSetRow_row_congr (A B : Mat) (i : ℕ) (o o2 : Option Vec)
    (ho : o = o2) (hs : o.isSome = true)
    (hr : A.rows = B.rows) (hc : A.cols = B.cols) :
    (optSetRow A i o).row i = (optSetRow B i o2).row i := by
  subst ho
  rcases o with _ | v
  · simp at hs
  · exact setRow_row_congr A B i v hr hc

/-- The post-step-1 quantities depend on the previous state only through
the four shared read slices, the coefficient record (read wholesale by the
line-298 map) and the step-1 coefficient row. -/
theorem svTail_congr (cfg : SvCfg) (ext : SvExt) (i : ℕ) (pv pv' : SvPrev)
    (cr cr' : SvCarry)
    (ha : pv.a_prev = pv'.a_prev) (hh : pv.h_prev = pv'.h_prev)
    (hh0 : pv.h0_prev = pv'.h0_prev) (hsig : pv.sig_prev = pv'.sig_prev)
    (hrec : pv.coef_rec = pv'.coef_rec)
    (hcr : (svCoefOut cfg ext i pv cr).coef_row = (svCoefOut cfg ext i pv' cr').coef_row) :
    svLatentInnov cfg ext i pv cr = svLatentInnov cfg ext i pv' cr' ∧
    svHBlock cfg ext i pv cr = svHBlock cfg ext i pv' cr' ∧
    svSigRow cfg ext i pv cr = svSigRow cfg ext i pv' cr' ∧
    svH0Row cfg ext i pv cr = svH0Row cfg ext i pv' cr' := by
  have hlat : svLatentInnov cfg ext i pv cr = svLatentInnov cfg ext i pv' cr' := by
    unfold svLatentInnov svCoefRecAfter
    rw [hrec, hcr]
  have hortho : svOrtho cfg ext i pv cr = svOrtho cfg ext i pv' cr' := by
    simp only [svOrtho]
    rw [hlat, ha]
  have hhb : svHBlock cfg ext i pv cr = svHBlock cfg ext i pv' cr' := by
    unfold svHBlock
    rw [hortho, hh, hh0, hsig]
  have hsr : svSigRow cfg ext i pv cr = svSigRow cfg ext i pv' cr' := by
    unfold svSigRow
    rw [hh0, hhb]
  have hh0r : svH0Row cfg ext i pv cr = svH0Row cfg ext i pv' cr' := by
    unfold svH0Row
    rw [hh0, hhb, hsr]
  exact ⟨hlat, hhb, hsr, hh0r⟩

/-- Under the Minnesota regime the drawn coefficient row is determined by
the previous loading row, the previous volatility block and the carried
coefficient prior precision. -/
theorem svCoef_congr_pt1 (cfg : SvCfg) (ext : SvExt) (i : ℕ) (pv pv' : SvPrev)
    (cr cr' : SvCarry) (h1 : cfg.prior_type = 1)
    (ha : pv.a_prev = pv'.a_prev) (hh : pv.h_prev = pv'.h_prev)
    (hpap : cr.prior_alpha_prec = cr'.prior_alpha_prec) :
    (svCoefOut cfg ext i pv cr).coef_row = (svCoefOut cfg ext i pv' cr').coef_row ∧
      ((svCoefOut cfg ext i pv cr).coef_row).isSome = true := by
  constructor
  · unfold svCoefOut svCoefStep
    rw [if_pos h1, if_pos h1]
    rw [hpap, svPrecStack_congr cfg ext pv pv' ha hh]
  · unfold svCoefOut svCoefStep
    rw [if_pos h1]
    rfl

/-- Under the Minnesota regime the drawn loading row is determined by the
shared read slices, the residual matrix and the carried loading prior
precision. -/
theorem svContem_congr_pt1 (cfg : SvCfg) (ext : SvExt) (i : ℕ) (pv pv' : SvPrev)
    (cr cr' : SvCarry) (h1 : cfg.prior_type = 1)
    (hh : pv.h_prev = pv'.h_prev)
    (hpcp : cr.prior_chol_prec = cr'.prior_chol_prec)
    (hlat : svLatentInnov cfg ext i pv cr = svLatentInnov cfg ext i pv' cr') :
    (svContemOut cfg ext i pv cr).contem_row =
      (svContemOut cfg ext i pv' cr').contem_row := by
  unfold svContemOut svContemStep
  simp only [if_neg (show ¬(cfg.prior_type = 2) from by rw [h1]; decide),
    if_neg (show ¬(cfg.prior_type = 3) from by rw [h1]; decide)]
  rw [hlat, hpcp, svInnovPrec_congr cfg ext pv pv' hh]

/-- Under the SSVS regime the step-1 outputs are determined by the shared
read slices, the previous dummy and weight rows, and the carried prior
precision through its shape and off-diagonal entries only (its diagonal is
overwritten), the carried select accumulator through its shape only
(coverage overwrites every in-range entry). -/
theorem svCoef_congr_pt2 (cfg : SvCfg) (ext : SvExt) (i : ℕ) (pv pv' : SvPrev)
    (cr cr' : SvCarry) (h2 : cfg.prior_type = 2)
    (ha : pv.a_prev = pv'.a_prev) (hh : pv.h_prev = pv'.h_prev)
    (hcd : pv.coef_dummy_prev = pv'.coef_dummy_prev)
    (hcw : pv.coef_weight_prev = pv'.coef_weight_prev)
    (hr1 : cr.prior_alpha_prec.rows = cfg.numCoef)
    (hc1 : cr.prior_alpha_prec.cols = cfg.numCoef)
    (hr2 : cr'.prior_alpha_prec.rows = cfg.numCoef)
    (hc2 : cr'.prior_alpha_prec.cols = cfg.numCoef)
    (hod1 : ∀ r c, r ≠ c → cr.prior_alpha_prec.entry r c = 0)
    (hod2 : ∀ r c, r ≠ c → cr'.prior_alpha_prec.entry r c = 0)
    (hsw1 : cr.slab_weight_mat.rows = cfg.numAlpha / cfg.dim)
    (hsw2 : cr.slab_weight_mat.cols = cfg.dim)
    (hsw3 : cr'.slab_weight_mat.rows = cfg.numAlpha / cfg.dim)
    (hsw4 : cr'.slab_weight_mat.cols = cfg.dim)
    (hcov : ∀ r c, r < cfg.numAlpha / cfg.dim → c < cfg.dim →
      ∃ jj, jj < cfg.numGrp ∧ cfg.grp_mat.entry r c = (cfg.grp_id.entry jj : ℚ)) :
    ((svCoefOut cfg ext i pv cr).coef_row = (svCoefOut cfg ext i pv' cr').coef_row ∧
      ((svCoefOut cfg ext i pv cr).coef_row).isSome = true) ∧
    ((svCoefOut cfg ext i pv cr).coef_dummy_row =
        (svCoefOut cfg ext i pv' cr').coef_dummy_row ∧
      ((svCoefOut cfg ext i pv cr).coef_dummy_row).isSome = true) ∧
    ((svCoefOut cfg ext i pv cr).coef_weight_row =
        (svCoefOut cfg ext i pv' cr').coef_weight_row ∧
      ((svCoefOut cfg ext i pv cr).coef_weight_row).isSome = true) := by
  have hne1 : ¬(cfg.prior_type = 1) := by rw [h2]; decide
  have hrow : cr.prior_alpha_prec.rows = cr'.prior_alpha_prec.rows := by rw [hr1, hr2]
  have hcol : cr.prior_alpha_prec.cols = cr'.prior_alpha_prec.cols := by rw [hc1, hc2]
  have hod : ∀ r c, r ≠ c →
      cr.prior_alpha_prec.entry r c = cr'.prior_alpha_prec.entry r c :=
    fun r c hne => by rw [hod1 r c hne, hod2 r c hne]
  have hgs : vectorize_eigen (grpSelect cfg.grp_mat cfg.grp_id
        (fun j => pv'.coef_weight_prev.entry j) (cfg.numAlpha / cfg.dim) cfg.dim
        cfg.numGrp cr.slab_weight_mat) =
      vectorize_eigen (grpSelect cfg.grp_mat cfg.grp_id
        (fun j => pv'.coef_weight_prev.entry j) (cfg.numAlpha / cfg.dim) cfg.dim
        cfg.numGrp cr'.slab_weight_mat) :=
    grpSelect_vectorize_congr _ _ _ _ _ _ _ _ hcov hsw1 hsw2 hsw3 hsw4
  refine ⟨⟨?_, ?_⟩, ⟨?_, ?_⟩, ⟨?_, ?_⟩⟩
  · unfold svCoefOut svCoefStep
    simp only [if_neg hne1, if_pos h2]
    rw [hcd, hrow, setDiag_congr cr.prior_alpha_prec cr'.prior_alpha_prec hrow hcol hod,
      svPrecStack_congr cfg ext pv pv' ha hh]
  · unfold svCoefOut svCoefStep
    simp only [if_neg hne1, if_pos h2]
    rfl
  · unfold svCoefOut svCoefStep
    simp only [if_neg hne1, if_pos h2]
    rw [hcd, hcw, hrow, setDiag_congr cr.prior_alpha_prec cr'.prior_alpha_prec hrow hcol hod,
      svPrecStack_congr cfg ext pv pv' ha hh, hgs]
  · unfold svCoefOut svCoefStep
    simp only [if_neg hne1, if_pos h2]
    rfl
  · unfold svCoefOut svCoefStep
    simp only [if_neg hne1, if_pos h2]
    rw [hcd, hcw, hrow, setDiag_congr cr.prior_alpha_prec cr'.prior_alpha_prec hrow hcol hod,
      svPrecStack_congr cfg ext pv pv' ha hh, hgs]
  · unfold svCoefOut svCoefStep
    simp only [if_neg hne1, if_pos h2]
    rfl

/-- Under the SSVS regime the step-3 outputs are determined by the shared
read slices, the carried inclusion weight and the carried loading prior
precision through its shape and off-diagonal entries only. -/
theorem svContem_congr_pt2 (cfg : SvCfg) (ext : SvExt) (i : ℕ) (pv pv' : SvPrev)
    (cr cr' : SvCarry) (h2 : cfg.prior_type = 2)
    (ha : pv.a_prev = pv'.a_prev) (hh : pv.h_prev = pv'.h_prev)
    (hksw : cr.chol_slab_weight = cr'.chol_slab_weight)
    (hr1 : cr.prior_chol_prec.rows = cfg.numLowerchol)
    (hc1 : cr.prior_chol_prec.cols = cfg.numLowerchol)
    (hr2 : cr'.prior_chol_prec.rows = cfg.numLowerchol)
    (hc2 : cr'.prior_chol_prec.cols = cfg.numLowerchol)
    (hod1 : ∀ r c, r ≠ c → cr.prior_chol_prec.entry r c = 0)
    (hod2 : ∀ r c, r ≠ c → cr'.prior_chol_prec.entry r c = 0)
    (hlat : svLatentInnov cfg ext i pv cr = svLatentInnov cfg ext i pv' cr') :
    ((svContemOut cfg ext i pv cr).contem_row =
      (svContemOut cfg ext i pv' cr').contem_row) ∧
    ((svContemOut cfg ext i pv cr).contem_dummy_row =
        (svContemOut cfg ext i pv' cr').contem_dummy_row ∧
      ((svContemOut cfg ext i pv cr).contem_dummy_row).isSome = true) ∧
    ((svContemOut cfg ext i pv cr).contem_weight_row =
        (svContemOut cfg ext i pv' cr').contem_weight_row ∧
      ((svContemOut cfg ext i pv cr).contem_weight_row).isSome = true) := by
  have hrow : cr.prior_chol_prec.rows = cr'.prior_chol_prec.rows := by rw [hr1, hr2]
  have hcol : cr.prior_chol_prec.cols = cr'.prior_chol_prec.cols := by rw [hc1, hc2]
  have hod : ∀ r c, r ≠ c →
      cr.prior_chol_prec.entry r c = cr'.prior_chol_prec.entry r c :=
    fun r c hne => by rw [hod1 r c hne, hod2 r c hne]
  refine ⟨?_, ⟨?_, ?_⟩, ⟨?_, ?_⟩⟩
  · unfold svContemOut svContemStep
    simp only [if_pos h2]
    rw [ha, hksw, hrow, setDiag_congr cr.prior_chol_prec cr'.prior_chol_prec hrow hcol hod,
      hlat, svInnovPrec_congr cfg ext pv pv' hh]
  · unfold svContemOut svContemStep
    simp only [if_pos h2]
    rw [ha, hksw]
  · unfold svContemOut svContemStep
    simp only [if_pos h2]
    rfl
  · unfold svContemOut svContemStep
    simp only [if_pos h2]
    rw [ha, hksw]
  · unfold svContemOut svContemStep
    simp only [if_pos h2]
    rfl

/-- C9: amended step-agreement property.  Under the Minnesota and SSVS
regimes (prior types 1 and 2), two runs that agree on the iteration-(i−1)
recorded rows and on the whole coefficient record produce identical
iteration-i recorded rows, given the loop invariants on the carried
working state.  Agreement on the full coefficient record — not only its
row i−1 — is required because the line-298 default-stride map reads
record storage cells belonging to rows of other iterations into the
residual computation.  The carried-state invariants are: for type 1 both prior precisions
are the constants installed by the preamble; for type 2 the carried prior
precisions have their nominal shapes and zero off-diagonals (only their
diagonals are ever rewritten), the carried inclusion weight equals the
recorded row i−1 of the weight record, the select accumulator has its
nominal shape and every in-range cell of the grouping matrix carries some
group id.  (For prior type 3 the analogous statement fails: see the
counterexample, where the unrecorded carried contemporaneous shrinkage
state changes the recorded output.) -/
theorem c9_markov_amended (cfg : SvCfg) (ext : SvExt) (i : ℕ) (st st' : SvState)
    (hpt : cfg.prior_type = 1 ∨ cfg.prior_type = 2)
    (hdims : SvDimsOK cfg st) (hdims' : SvDimsOK cfg st')
    (h_a : st.contem_coef_record.row (i - 1) = st'.contem_coef_record.row (i - 1))
    (h_h : st.lvol_record.block (cfg.numDesign * (i - 1)) 0 cfg.numDesign cfg.dim =
      st'.lvol_record.block (cfg.numDesign * (i - 1)) 0 cfg.numDesign cfg.dim)
    (h_h0 : st.lvol_init_record.row (i - 1) = st'.lvol_init_record.row (i - 1))
    (h_sig : st.lvol_sig_record.row (i - 1) = st'.lvol_sig_record.row (i - 1))
    (h_cd : st.coef_dummy_record.row (i - 1) = st'.coef_dummy_record.row (i - 1))
    (h_cw : st.coef_weight_record.row (i - 1) = st'.coef_weight_record.row (i - 1))
    (h_kw : st.contem_weight_record.row (i - 1) = st'.contem_weight_record.row (i - 1))
    (h_cr : st.coef_record = st'.coef_record)
    (hinv1 : cfg.prior_type = 1 →
      st.prior_alpha_prec = kronecker_eigen cfg.prec_diag cfg.prior_coef_prec ∧
      st'.prior_alpha_prec = kronecker_eigen cfg.prec_diag cfg.prior_coef_prec ∧
      st.prior_chol_prec = Mat.identity cfg.numLowerchol ∧
      st'.prior_chol_prec = Mat.identity cfg.numLowerchol)
    (hinv2 : cfg.prior_type = 2 →
      (st.prior_alpha_prec.rows = cfg.numCoef ∧ st.prior_alpha_prec.cols = cfg.numCoef ∧
       st'.prior_alpha_prec.rows = cfg.numCoef ∧ st'.prior_alpha_prec.cols = cfg.numCoef ∧
       (∀ r c, r ≠ c → st.prior_alpha_prec.entry r c = 0) ∧
       (∀ r c, r ≠ c → st'.prior_alpha_prec.entry r c = 0)) ∧
      (st.prior_chol_prec.rows = cfg.numLowerchol ∧
       st.prior_chol_prec.cols = cfg.numLowerchol ∧
       st'.prior_chol_prec.rows = cfg.numLowerchol ∧
       st'.prior_chol_prec.cols = cfg.numLowerchol ∧
       (∀ r c, r ≠ c → st.prior_chol_prec.entry r c = 0) ∧
       (∀ r c, r ≠ c → st'.prior_chol_prec.entry r c = 0)) ∧
      (st.chol_slab_weight = st.contem_weight_record.row (i - 1) ∧
       st'.chol_slab_weight = st'.contem_weight_record.row (i - 1)) ∧
      (st.slab_weight_mat.rows = cfg.numAlpha / cfg.dim ∧
       st.slab_weight_mat.cols = cfg.dim ∧
       st'.slab_weight_mat.rows = cfg.numAlpha / cfg.dim ∧
       st'.slab_weight_mat.cols = cfg.dim) ∧
      (∀ r c, r < cfg.numAlpha / cfg.dim → c < cfg.dim →
        ∃ jj, jj < cfg.numGrp ∧ cfg.grp_mat.entry r c = (cfg.grp_id.entry jj : ℚ))) :
    (svStep cfg ext i st).coef_record.row i = (svStep cfg ext i st').coef_record.row i ∧
    (svStep cfg ext i st).lvol_record.block (cfg.numDesign * i) 0 cfg.numDesign cfg.dim =
      (svStep cfg ext i st').lvol_record.block (cfg.numDesign * i) 0
        cfg.numDesign cfg.dim ∧
    (svStep cfg ext i st).contem_coef_record.row i =
      (svStep cfg ext i st').contem_coef_record.row i ∧
    (svStep cfg ext i st).lvol_sig_record.row i =
      (svStep cfg ext i st').lvol_sig_record.row i ∧
    (svStep cfg ext i st).lvol_init_record.row i =
      (svStep cfg ext i st').lvol_init_record.row i ∧
    (cfg.prior_type = 2 →
      (svStep cfg ext i st).coef_dummy_record.row i =
        (svStep cfg ext i st').coef_dummy_record.row i ∧
      (svStep cfg ext i st).coef_weight_record.row i =
        (svStep cfg ext i st').coef_weight_record.row i ∧
      (svStep cfg ext i st).contem_dummy_record.row i =
        (svStep cfg ext i st').contem_dummy_record.row i ∧
      (svStep cfg ext i st).contem_weight_record.row i =
        (svStep cfg ext i st').contem_weight_record.row i) := by
  rcases hpt with h1 | h2
  · obtain ⟨hpapL, hpapR, hpcpL, hpcpR⟩ := hinv1 h1
    have hpap : (svCarryOf st).prior_alpha_prec = (svCarryOf st').prior_alpha_prec := by
      show st.prior_alpha_prec = st'.prior_alpha_prec
      rw [hpapL, hpapR]
    have hpcp : (svCarryOf st).prior_chol_prec = (svCarryOf st').prior_chol_prec := by
      show st.prior_chol_prec = st'.prior_chol_prec
      rw [hpcpL, hpcpR]
    obtain ⟨hcr, hcs⟩ := svCoef_congr_pt1 cfg ext i (svPrevOf cfg i st)
      (svPrevOf cfg i st') (svCarryOf st) (svCarryOf st') h1 h_a h_h hpap
    obtain ⟨hlat, hhb, hsr, hh0r⟩ := svTail_congr cfg ext i (svPrevOf cfg i st)
      (svPrevOf cfg i st') (svCarryOf st) (svCarryOf st') h_a h_h h_h0 h_sig h_cr hcr
    have hcon := svContem_congr_pt1 cfg ext i (svPrevOf cfg i st)
      (svPrevOf cfg i st') (svCarryOf st) (svCarryOf st') h1 h_h hpcp hlat
    refine ⟨?_, ?_, ?_, ?_, ?_, ?_⟩
    · rw [svStep_coef, svStep_coef]
      exact optSetRow_row_congr _ _ _ _ _ hcr hcs
        (by rw [hdims.coef_rows, hdims'.coef_rows])
        (by rw [hdims.coef_cols, hdims'.coef_cols])
    · rw [svStep_lvol, svStep_lvol, hhb]
      exact setBlock_block_congr _ _ _ _ _ _
        (by rw [hdims.h_rows, hdims'.h_rows]) (by rw [hdims.h_cols, hdims'.h_cols]) rfl rfl
    · rw [svStep_contem, svStep_contem, hcon]
      exact setRow_row_congr _ _ _ _
        (by rw [hdims.contem_rows, hdims'.contem_rows])
        (by rw [hdims.contem_cols, hdims'.contem_cols])
    · rw [svStep_sig, svStep_sig, hsr]
      exact setRow_row_congr _ _ _ _
        (by rw [hdims.sig_rows, hdims'.sig_rows])
        (by rw [hdims.sig_cols, hdims'.sig_cols])
    · rw [svStep_h0, svStep_h0, hh0r]
      exact setRow_row_congr _ _ _ _
        (by rw [hdims.h0_rows, hdims'.h0_rows])
        (by rw [hdims.h0_cols, hdims'.h0_cols])
    · intro hq
      exact absurd (h1.symm.trans hq) (by decide)
  · obtain ⟨⟨ha1, ha2, ha3, ha4, ha5, ha6⟩, ⟨hb1, hb2, hb3, hb4, hb5, hb6⟩,
      ⟨hw1, hw2⟩, ⟨hm1, hm2, hm3, hm4⟩, hcov⟩ := hinv2 h2
    have hksw : (svCarryOf st).chol_slab_weight = (svCarryOf st').chol_slab_weight := by
      show st.chol_slab_weight = st'.chol_slab_weight
      rw [hw1, h_kw, ← hw2]
    obtain ⟨⟨hcr, hcs⟩, ⟨hcdum, hcdums⟩, ⟨hcwt, hcwts⟩⟩ :=
      svCoef_congr_pt2 cfg ext i (svPrevOf cfg i st) (svPrevOf cfg i st')
        (svCarryOf st) (svCarryOf st') h2 h_a h_h h_cd h_cw
        ha1 ha2 ha3 ha4 ha5 ha6 hm1 hm2 hm3 hm4 hcov
    obtain ⟨hlat, hhb, hsr, hh0r⟩ := svTail_congr cfg ext i (svPrevOf cfg i st)
      (svPrevOf cfg i st') (svCarryOf st) (svCarryOf st') h_a h_h h_h0 h_sig h_cr hcr
    obtain ⟨hcon, ⟨hkdum, hkdums⟩, ⟨hkwt, hkwts⟩⟩ :=
      svContem_congr_pt2 cfg ext i (svPrevOf cfg i st) (svPrevOf cfg i st')
        (svCarryOf st) (svCarryOf st') h2 h_a h_h hksw
        hb1 hb2 hb3 hb4 hb5 hb6 hlat
    refine ⟨?_, ?_, ?_, ?_, ?_, fun _ => ⟨?_, ?_, ?_, ?_⟩⟩
    · rw [svStep_coef, svStep_coef]
      exact optSetRow_row_congr _ _ _ _ _ hcr hcs
        (by rw [hdims.coef_rows, hdims'.coef_rows])
        (by rw [hdims.coef_cols, hdims'.coef_cols])
    · rw [svStep_lvol, svStep_lvol, hhb]
      exact setBlock_block_congr _ _ _ _ _ _
        (by rw [hdims.h_rows, hdims'.h_rows]) (by rw [hdims.h_cols, hdims'.h_cols]) rfl rfl
    · rw [svStep_contem, svStep_contem, hcon]
      exact setRow_row_congr _ _ _ _
        (by rw [hdims.contem_rows, hdims'.contem_rows])
        (by rw [hdims.contem_cols, hdims'.contem_cols])
    · rw [svStep_sig, svStep_sig, hsr]
      exact setRow_row_congr _ _ _ _
        (by rw [hdims.sig_rows, hdims'.sig_rows])
        (by rw [hdims.sig_cols, hdims'.sig_cols])
    · rw [svStep_h0, svStep_h0, hh0r]
      exact setRow_row_congr _ _ _ _
        (by rw [hdims.h0_rows, hdims'.h0_rows])
        (by rw [hdims.h0_cols, hdims'.h0_cols])
    · show (optSetRow st.coef_dummy_record i
          (svCoefOut cfg ext i (svPrevOf cfg i st) (svCarryOf st)).coef_dummy_row).row i =
        (optSetRow st'.coef_dummy_record i
          (svCoefOut cfg ext i (svPrevOf cfg i st') (svCarryOf st')).coef_dummy_row).row i
      exact optSetRow_row_congr _ _ _ _ _ hcdum hcdums
        (by rw [hdims.cdummy_rows, hdims'.cdummy_rows])
        (by rw [hdims.cdummy_cols, hdims'.cdummy_cols])
    · show (optSetRow st.coef_weight_record i
          (svCoefOut cfg ext i (svPrevOf cfg i st) (svCarryOf st)).coef_weight_row).row i =
        (optSetRow st'.coef_weight_record i
          (svCoefOut cfg ext i (svPrevOf cfg i st') (svCarryOf st')).coef_weight_row).row i
      exact optSetRow_row_congr _ _ _ _ _ hcwt hcwts
        (by rw [hdims.cweight_rows, hdims'.cweight_rows])
        (by rw [hdims.cweight_cols, hdims'.cweight_cols])
    · show (optSetRow st.contem_dummy_record i
          (svContemOut cfg ext i (svPrevOf cfg i st) (svCarryOf st)).contem_dummy_row).row i =
        (optSetRow st'.contem_dummy_record i
          (svContemOut cfg ext i (svPrevOf cfg i st') (svCarryOf st')).contem_dummy_row).row i
      exact optSetRow_row_congr _ _ _ _ _ hkdum hkdums
        (by rw [hdims.kdummy_rows, hdims'.kdummy_rows])
        (by rw [hdims.kdummy_cols, hdims'.kdummy_cols])
    · show (optSetRow st.contem_weight_record i
          (svContemOut cfg ext i (svPrevOf cfg i st) (svCarryOf st)).contem_weight_row).row i =
        (optSetRow st'.contem_weight_record i
          (svContemOut cfg ext i (svPrevOf cfg i st') (svCarryOf st')).contem_weight_row).row i
      exact optSetRow_row_congr _ _ _ _ _ hkwt hkwts
        (by rw [hdims.kweight_rows, hdims'.kweight_rows])
        (by rw [hdims.kweight_cols, hdims'.kweight_cols])

/-- C9 witness: the amended Markov step-agreement theorem applied under the
Minnesota regime at iteration 1 of a concrete configuration, with both runs
started from the initial state (which satisfies every loop invariant). -/
theorem c9_witness :
    (svStep (mkTestCfg 1 1 0 1) svExtTriv 1
        (svInit (mkTestCfg 1 1 0 1) svExtTriv)).coef_record.row 1 =
      (svStep (mkTestCfg 1 1 0 1) svExtTriv 1
        (svInit (mkTestCfg 1 1 0 1) svExtTriv)).coef_record.row 1 :=
  (c9_markov_amended (mkTestCfg 1 1 0 1) svExtTriv 1
    (svInit (mkTestCfg 1 1 0 1) svExtTriv) (svInit (mkTestCfg 1 1 0 1) svExtTriv)
    (Or.inl rfl) (svInit_dims _ _) (svInit_dims _ _)
    rfl rfl rfl rfl rfl rfl rfl rfl
    (fun _ => ⟨rfl, rfl, rfl, rfl⟩)
    (fun h => absurd h (by decide))).1

/-- C9 counterexample: under the horseshoe regime (prior type 3) two runs
that agree on every entry of every recorded iteration-0 row — differing
only in the carried contemporaneous global shrinkage, which no record
stores — produce different recorded loading rows at iteration 1, so
recorded row i−1 plus the random stream does not determine recorded
row i. -/
theorem c9_counterexample :
    ((svInit (mkTestCfg 3 1 0 1) svExtPrec).coef_record.entry 0 0 =
        (svInit (mkTestCfg 3 1 0 2) svExtPrec).coef_record.entry 0 0 ∧
      (svInit (mkTestCfg 3 1 0 1) svExtPrec).coef_record.entry 0 1 =
        (svInit (mkTestCfg 3 1 0 2) svExtPrec).coef_record.entry 0 1 ∧
      (svInit (mkTestCfg 3 1 0 1) svExtPrec).contem_coef_record.entry 0 0 =
        (svInit (mkTestCfg 3 1 0 2) svExtPrec).contem_coef_record.entry 0 0 ∧
      (svInit (mkTestCfg 3 1 0 1) svExtPrec).lvol_sig_record.entry 0 0 =
        (svInit (mkTestCfg 3 1 0 2) svExtPrec).lvol_sig_record.entry 0 0 ∧
      (svInit (mkTestCfg 3 1 0 1) svExtPrec).lvol_sig_record.entry 0 1 =
        (svInit (mkTestCfg 3 1 0 2) svExtPrec).lvol_sig_record.entry 0 1 ∧
      (svInit (mkTestCfg 3 1 0 1) svExtPrec).lvol_init_record.entry 0 0 =
        (svInit (mkTestCfg 3 1 0 2) svExtPrec).lvol_init_record.entry 0 0 ∧
      (svInit (mkTestCfg 3 1 0 1) svExtPrec).lvol_init_record.entry 0 1 =
        (svInit (mkTestCfg 3 1 0 2) svExtPrec).lvol_init_record.entry 0 1 ∧
      (svInit (mkTestCfg 3 1 0 1) svExtPrec).lvol_record.entry 0 0 =
        (svInit (mkTestCfg 3 1 0 2) svExtPrec).lvol_record.entry 0 0 ∧
      (svInit (mkTestCfg 3 1 0 1) svExtPrec).lvol_record.entry 0 1 =
        (svInit (mkTestCfg 3 1 0 2) svExtPrec).lvol_record.entry 0 1 ∧
      (svInit (mkTestCfg 3 1 0 1) svExtPrec).coef_dummy_record.entry 0 0 =
        (svInit (mkTestCfg 3 1 0 2) svExtPrec).coef_dummy_record.entry 0 0 ∧
      (svInit (mkTestCfg 3 1 0 1) svExtPrec).coef_dummy_record.entry 0 1 =
        (svInit (mkTestCfg 3 1 0 2) svExtPrec).coef_dummy_record.entry 0 1 ∧
      (svInit (mkTestCfg 3 1 0 1) svExtPrec).coef_weight_record.entry 0 0 =
        (svInit (mkTestCfg 3 1 0 2) svExtPrec).coef_weight_record.entry 0 0 ∧
      (svInit (mkTestCfg 3 1 0 1) svExtPrec).contem_dummy_record.entry 0 0 =
        (svInit (mkTestCfg 3 1 0 2) svExtPrec).contem_dummy_record.entry 0 0 ∧
      (svInit (mkTestCfg 3 1 0 1) svExtPrec).contem_weight_record.entry 0 0 =
        (svInit (mkTestCfg 3 1 0 2) svExtPrec).contem_weight_record.entry 0 0 ∧
      (svInit (mkTestCfg 3 1 0 1) svExtPrec).local_record.entry 0 0 =
        (svInit (mkTestCfg 3 1 0 2) svExtPrec).local_record.entry 0 0 ∧
      (svInit (mkTestCfg 3 1 0 1) svExtPrec).local_record.entry 0 1 =
        (svInit (mkTestCfg 3 1 0 2) svExtPrec).local_record.entry 0 1 ∧
      (svInit (mkTestCfg 3 1 0 1) svExtPrec).global_record.entry 0 0 =
        (svInit (mkTestCfg 3 1 0 2) svExtPrec).global_record.entry 0 0 ∧
      (svInit (mkTestCfg 3 1 0 1) svExtPrec).shrink_record.entry 0 0 =
        (svInit (mkTestCfg 3 1 0 2) svExtPrec).shrink_record.entry 0 0 ∧
      (svInit (mkTestCfg 3 1 0 1) svExtPrec).shrink_record.entry 0 1 =
        (svInit (mkTestCfg 3 1 0 2) svExtPrec).shrink_record.entry 0 1) ∧
    ¬((svStep (mkTestCfg 3 1 0 1) svExtPrec 1
          (svInit (mkTestCfg 3 1 0 1) svExtPrec)).contem_coef_record.entry 1 0 =
      (svStep (mkTestCfg 3 1 0 2) svExtPrec 1
          (svInit (mkTestCfg 3 1 0 2) svExtPrec)).contem_coef_record.entry 1 0) := by
  with_unfolding_all decide

end Bvhar
